/-
Verification of the CHIP-8 toolchain: the shared instruction codec
(`instructions/src/encoding.rs`, `instructions/src/decoding.rs`), the
interpreter (`interpreter/src/interpreter/mod.rs`), the older embedded
decoder (`src/interpreter/instruction.rs`) and the assembler code
generator (`assembler/src/codegen.rs`).

Machine integers are modelled as `Nat` with explicit `% 2^w` (or masks)
where the Rust code can wrap; fallible Rust code (`Result`, panics on
out-of-bounds indexing) is modelled with `Except`.
-/
import Mathlib

namespace Chip8Verify

/-! ## Instruction model (`instructions/src/lib.rs`) -/

/-- `Operand` from `instructions/src/lib.rs`: a general purpose register or a
literal byte. Field values are `Nat`s standing for the Rust `u8`. -/
inductive Operand where
  | Register (r : Nat)
  | Literal (b : Nat)
deriving DecidableEq, Repr

/-- `Instruction` from `instructions/src/lib.rs`: the 32 opcode variants plus
`Nop`. `u8` fields become `Nat`s `< 256` and `u16` fields `Nat`s `< 65536`
(the bounds are carried by `Instruction.wf` below). -/
inductive Instruction where
  | Nop
  | ClearScreen
  | Return
  | Jump (address : Nat)
  | Call (address : Nat)
  | SkipIfEqual (x : Nat) (op : Operand)
  | SkipIfNotEqual (x : Nat) (op : Operand)
  | LoadRegister (x : Nat) (op : Operand)
  | AddNoCarry (x : Nat) (b : Nat)
  | Or (x y : Nat)
  | And (x y : Nat)
  | Xor (x y : Nat)
  | AddWithCarry (x y : Nat)
  | Sub (x y : Nat)
  | ShiftRight (x : Nat)
  | SubN (x y : Nat)
  | ShiftLeft (x : Nat)
  | LoadMemoryRegister (address : Nat)
  | JumpPlusV0 (address : Nat)
  | LoadRandomWithMask (x mask : Nat)
  | Draw (x y n : Nat)
  | SkipIfKeyPressed (x : Nat)
  | SkipIfKeyNotPressed (x : Nat)
  | LoadFromDelayTimer (x : Nat)
  | WaitForKeyPress (x : Nat)
  | LoadIntoDelayTimer (x : Nat)
  | LoadIntoSoundTimer (x : Nat)
  | AddToMemoryRegister (x : Nat)
  | LoadDigitAddress (x : Nat)
  | StoreBcdInMemory (x : Nat)
  | StoreRegistersInMemory (x : Nat)
  | ReadRegistersFromMemory (x : Nat)
deriving DecidableEq, Repr

/-- The typing constraint that the Rust types (`u8` operands, `u16`
addresses) impose on an `Instruction` value. -/
def Operand.wf : Operand → Prop
  | .Register r => r < 256
  | .Literal b => b < 256

instance : DecidablePred Operand.wf := fun op => by
  cases op <;> simp [Operand.wf] <;> infer_instance

/-- Well-formedness of an instruction value: every field fits its Rust type. -/
def Instruction.wf : Instruction → Prop
  | .Nop | .ClearScreen | .Return => True
  | .Jump a | .Call a | .LoadMemoryRegister a | .JumpPlusV0 a => a < 65536
  | .SkipIfEqual x op | .SkipIfNotEqual x op | .LoadRegister x op =>
      x < 256 ∧ op.wf
  | .AddNoCarry x b | .LoadRandomWithMask x b => x < 256 ∧ b < 256
  | .Or x y | .And x y | .Xor x y | .AddWithCarry x y | .Sub x y
  | .SubN x y => x < 256 ∧ y < 256
  | .Draw x y n => x < 256 ∧ y < 256 ∧ n < 256
  | .ShiftRight x | .ShiftLeft x | .SkipIfKeyPressed x
  | .SkipIfKeyNotPressed x | .LoadFromDelayTimer x | .WaitForKeyPress x
  | .LoadIntoDelayTimer x | .LoadIntoSoundTimer x | .AddToMemoryRegister x
  | .LoadDigitAddress x | .StoreBcdInMemory x | .StoreRegistersInMemory x
  | .ReadRegistersFromMemory x => x < 256

instance : DecidablePred Instruction.wf := fun i => by
  cases i <;> simp [Instruction.wf] <;> infer_instance

instance {E A : Type} [DecidableEq E] [DecidableEq A] :
    DecidableEq (Except E A) := fun a b =>
  match a, b with
  | .ok a, .ok b =>
    match decEq a b with
    | isTrue h => isTrue (by rw [h])
    | isFalse h => isFalse (by intro hc; cases hc; exact h rfl)
  | .error a, .error b =>
    match decEq a b with
    | isTrue h => isTrue (by rw [h])
    | isFalse h => isFalse (by intro hc; cases hc; exact h rfl)
  | .ok _, .error _ => isFalse (by intro hc; cases hc)
  | .error _, .ok _ => isFalse (by intro hc; cases hc)

/-! ## Encoding (`instructions/src/encoding.rs`) -/

/-- `EncodingError` from `instructions/src/encoding.rs`. -/
inductive EncodingError where
  | AddressTooBig (a : Nat)
  | RegisterTooBig (r : Nat)
  | NibbleTooBig (n : Nat)
deriving DecidableEq, Repr

/-- `assert_addr`: error if the address does not fit in 12 bits. -/
def assert_addr (addr : Nat) : Except EncodingError Unit :=
  if addr &&& 0xF000 = 0 then .ok () else .error (.AddressTooBig addr)

/-- `assert_reg`: error if the register number is greater than 15. -/
def assert_reg (reg : Nat) : Except EncodingError Unit :=
  if reg > 15 then .error (.RegisterTooBig reg) else .ok ()

/-- `u16::to_be_bytes` on a word below `2^16`. -/
def toBeBytes (w : Nat) : Nat × Nat := ((w >>> 8) &&& 0xFF, w &&& 0xFF)

/-- `encode` from `instructions/src/encoding.rs`: build the 16-bit opcode
word for an instruction and split it into big-endian bytes. -/
def encode (instruction : Instruction) : Except EncodingError (Nat × Nat) := do
  let word : Nat ←
    match instruction with
    | .Nop => pure 0x0000
    | .ClearScreen => pure 0x00E0
    | .Return => pure 0x00EE
    | .Jump address => do
        assert_addr address
        pure (0x1000 ||| address)
    | .Call address => do
        assert_addr address
        pure (0x2000 ||| address)
    | .SkipIfEqual r1 (.Register r2) => do
        assert_reg r1
        assert_reg r2
        pure (0x5000 ||| (r1 <<< 8) ||| (r2 <<< 4))
    | .SkipIfEqual r1 (.Literal byte) => do
        assert_reg r1
        pure (0x3000 ||| (r1 <<< 8) ||| byte)
    | .SkipIfNotEqual r1 (.Register r2) => do
        assert_reg r1
        assert_reg r2
        pure (0x9000 ||| (r1 <<< 8) ||| (r2 <<< 4))
    | .SkipIfNotEqual r1 (.Literal byte) => do
        assert_reg r1
        pure (0x4000 ||| (r1 <<< 8) ||| byte)
    | .LoadRegister r1 (.Register r2) => do
        assert_reg r1
        assert_reg r2
        pure (0x8000 ||| (r1 <<< 8) ||| (r2 <<< 4))
    | .LoadRegister r1 (.Literal byte) => do
        assert_reg r1
        pure (0x6000 ||| (r1 <<< 8) ||| byte)
    | .AddNoCarry r1 byte => do
        assert_reg r1
        pure (0x7000 ||| (r1 <<< 8) ||| byte)
    | .Or r1 r2 => do
        assert_reg r1
        assert_reg r2
        pure (0x8001 ||| (r1 <<< 8) ||| (r2 <<< 4))
    | .And r1 r2 => do
        assert_reg r1
        assert_reg r2
        pure (0x8002 ||| (r1 <<< 8) ||| (r2 <<< 4))
    | .Xor r1 r2 => do
        assert_reg r1
        assert_reg r2
        pure (0x8003 ||| (r1 <<< 8) ||| (r2 <<< 4))
    | .AddWithCarry r1 r2 => do
        assert_reg r1
        assert_reg r2
        pure (0x8004 ||| (r1 <<< 8) ||| (r2 <<< 4))
    | .Sub r1 r2 => do
        assert_reg r1
        assert_reg r2
        pure (0x8005 ||| (r1 <<< 8) ||| (r2 <<< 4))
    | .ShiftRight reg => do
        assert_reg reg
        pure (0x8006 ||| (reg <<< 8))
    | .SubN r1 r2 => do
        assert_reg r1
        assert_reg r2
        pure (0x8007 ||| (r1 <<< 8) ||| (r2 <<< 4))
    | .ShiftLeft reg => do
        assert_reg reg
        pure (0x800E ||| (reg <<< 8))
    | .LoadMemoryRegister address => do
        assert_addr address
        pure (0xA000 ||| address)
    | .JumpPlusV0 address => do
        assert_addr address
        pure (0xB000 ||| address)
    | .LoadRandomWithMask reg mask => do
        assert_reg reg
        pure (0xC000 ||| (reg <<< 8) ||| mask)
    | .Draw x y n => do
        assert_reg x
        assert_reg y
        if n > 15 then throw (.NibbleTooBig n)
        pure (0xD000 ||| (x <<< 8) ||| (y <<< 4) ||| n)
    | .SkipIfKeyPressed reg => do
        assert_reg reg
        pure (0xE09E ||| (reg <<< 8))
    | .SkipIfKeyNotPressed reg => do
        assert_reg reg
        pure (0xE0A1 ||| (reg <<< 8))
    | .LoadFromDelayTimer reg => do
        assert_reg reg
        pure (0xF007 ||| (reg <<< 8))
    | .WaitForKeyPress reg => do
        assert_reg reg
        pure (0xF00A ||| (reg <<< 8))
    | .LoadIntoDelayTimer reg => do
        assert_reg reg
        pure (0xF015 ||| (reg <<< 8))
    | .LoadIntoSoundTimer reg => do
        assert_reg reg
        pure (0xF018 ||| (reg <<< 8))
    | .AddToMemoryRegister reg => do
        assert_reg reg
        pure (0xF01E ||| (reg <<< 8))
    | .LoadDigitAddress reg => do
        assert_reg reg
        pure (0xF029 ||| (reg <<< 8))
    | .StoreBcdInMemory reg => do
        assert_reg reg
        pure (0xF033 ||| (reg <<< 8))
    | .StoreRegistersInMemory reg => do
        assert_reg reg
        pure (0xF055 ||| (reg <<< 8))
    | .ReadRegistersFromMemory reg => do
        assert_reg reg
        pure (0xF065 ||| (reg <<< 8))
  pure (toBeBytes word)

/-! ## Decoding (`instructions/src/decoding.rs`) -/

/-- `DecodingError` from `instructions/src/decoding.rs`. -/
inductive DecodingError where
  | UnrecognisedBytecode (w : Nat)
deriving DecidableEq, Repr

/-- The ordered opcode dispatch of `decode` from `instructions/src/decoding.rs`.
The Rust code matches the nibble tuple `(n1, n2, n3, n4)` against the opcode
table top to bottom; that ordered match is translated here as a chain of
conditions, one per match arm, with wildcard columns omitted.  Pattern
variables are `x := n2`, `y := n3`, `n := n4`; `b2` is the low input byte
(used by the `kk` payloads) and `w` the big-endian 16-bit word (used by the
fall-through `UnrecognisedBytecode` arm).  The source's `debug_assert!`s on
the reassembled addresses are debug-build checks and carry no semantics. -/
def decodeNibbles (n1 n2 n3 n4 b2 w : Nat) : Except DecodingError Instruction :=
  if n1 = 0 ∧ n2 = 0 ∧ n3 = 0xE ∧ n4 = 0 then .ok .ClearScreen
  else if n1 = 0 ∧ n2 = 0 ∧ n3 = 0xE ∧ n4 = 0xE then .ok .Return
  else if n1 = 1 then .ok (.Jump ((n2 <<< 8) + (n3 <<< 4) + n4))
  else if n1 = 2 then .ok (.Call ((n2 <<< 8) + (n3 <<< 4) + n4))
  else if n1 = 3 then .ok (.SkipIfEqual n2 (.Literal b2))
  else if n1 = 4 then .ok (.SkipIfNotEqual n2 (.Literal b2))
  else if n1 = 5 ∧ n4 = 0 then .ok (.SkipIfEqual n2 (.Register n3))
  else if n1 = 6 then .ok (.LoadRegister n2 (.Literal b2))
  else if n1 = 7 then .ok (.AddNoCarry n2 b2)
  else if n1 = 8 ∧ n4 = 0 then .ok (.LoadRegister n2 (.Register n3))
  else if n1 = 8 ∧ n4 = 1 then .ok (.Or n2 n3)
  else if n1 = 8 ∧ n4 = 2 then .ok (.And n2 n3)
  else if n1 = 8 ∧ n4 = 3 then .ok (.Xor n2 n3)
  else if n1 = 8 ∧ n4 = 4 then .ok (.AddWithCarry n2 n3)
  else if n1 = 8 ∧ n4 = 5 then .ok (.Sub n2 n3)
  else if n1 = 8 ∧ n4 = 6 then .ok (.ShiftRight n2)
  else if n1 = 8 ∧ n4 = 7 then .ok (.SubN n2 n3)
  else if n1 = 8 ∧ n4 = 0xE then .ok (.ShiftLeft n2)
  else if n1 = 9 ∧ n4 = 0 then .ok (.SkipIfNotEqual n2 (.Register n3))
  else if n1 = 0xA then .ok (.LoadMemoryRegister ((n2 <<< 8) + (n3 <<< 4) + n4))
  else if n1 = 0xB then .ok (.JumpPlusV0 ((n2 <<< 8) + (n3 <<< 4) + n4))
  else if n1 = 0xC then .ok (.LoadRandomWithMask n2 b2)
  else if n1 = 0xD then .ok (.Draw n2 n3 n4)
  else if n1 = 0xE ∧ n3 = 9 ∧ n4 = 0xE then .ok (.SkipIfKeyPressed n2)
  else if n1 = 0xE ∧ n3 = 0xA ∧ n4 = 1 then .ok (.SkipIfKeyNotPressed n2)
  else if n1 = 0xF ∧ n3 = 0 ∧ n4 = 7 then .ok (.LoadFromDelayTimer n2)
  else if n1 = 0xF ∧ n3 = 0 ∧ n4 = 0xA then .ok (.WaitForKeyPress n2)
  else if n1 = 0xF ∧ n3 = 1 ∧ n4 = 5 then .ok (.LoadIntoDelayTimer n2)
  else if n1 = 0xF ∧ n3 = 1 ∧ n4 = 8 then .ok (.LoadIntoSoundTimer n2)
  else if n1 = 0xF ∧ n3 = 1 ∧ n4 = 0xE then .ok (.AddToMemoryRegister n2)
  else if n1 = 0xF ∧ n3 = 2 ∧ n4 = 9 then .ok (.LoadDigitAddress n2)
  else if n1 = 0xF ∧ n3 = 3 ∧ n4 = 3 then .ok (.StoreBcdInMemory n2)
  else if n1 = 0xF ∧ n3 = 5 ∧ n4 = 5 then .ok (.StoreRegistersInMemory n2)
  else if n1 = 0xF ∧ n3 = 6 ∧ n4 = 5 then .ok (.ReadRegistersFromMemory n2)
  else .error (.UnrecognisedBytecode w)

/-- `decode` from `instructions/src/decoding.rs`: split the big-endian byte
pair into four nibbles and dispatch on the opcode table. -/
def decode (b1 b2 : Nat) : Except DecodingError Instruction :=
  decodeNibbles ((b1 &&& 0xF0) >>> 4) (b1 &&& 0x0F) ((b2 &&& 0xF0) >>> 4) (b2 &&& 0x0F)
    b2 ((b1 <<< 8) ||| b2)

/-! ## The older embedded decoder (`src/interpreter/instruction.rs`)

The root crate carries its own copy of the instruction enum and decoder,
textually predating the shared `instructions` crate.  It is embedded
separately here, in the `Legacy` namespace, so that the two decoders can be
compared. -/

namespace Legacy

/-- `Operand` from `src/interpreter/instruction.rs`. -/
inductive Operand where
  | Register (r : Nat)
  | Literal (b : Nat)
deriving DecidableEq, Repr

/-- `Instruction` from `src/interpreter/instruction.rs` (32 variants, no
`Nop`). -/
inductive Instruction where
  | ClearScreen
  | Return
  | Jump (address : Nat)
  | Call (address : Nat)
  | SkipIfEqual (x : Nat) (op : Operand)
  | SkipIfNotEqual (x : Nat) (op : Operand)
  | LoadRegister (x : Nat) (op : Operand)
  | AddNoCarry (x : Nat) (b : Nat)
  | Or (x y : Nat)
  | And (x y : Nat)
  | Xor (x y : Nat)
  | AddWithCarry (x y : Nat)
  | Sub (x y : Nat)
  | ShiftRight (x : Nat)
  | SubN (x y : Nat)
  | ShiftLeft (x : Nat)
  | LoadMemoryRegister (address : Nat)
  | JumpPlusV0 (address : Nat)
  | LoadRandomWithMask (x mask : Nat)
  | Draw (x y n : Nat)
  | SkipIfKeyPressed (x : Nat)
  | SkipIfKeyNotPressed (x : Nat)
  | LoadFromDelayTimer (x : Nat)
  | WaitForKeyPress (x : Nat)
  | LoadIntoDelayTimer (x : Nat)
  | LoadIntoSoundTimer (x : Nat)
  | AddToMemoryRegister (x : Nat)
  | LoadDigitAddress (x : Nat)
  | StoreBcdInMemory (x : Nat)
  | StoreRegistersInMemory (x : Nat)
  | ReadRegistersFromMemory (x : Nat)
deriving DecidableEq, Repr

/-- `DecodingError` from `src/interpreter/instruction.rs`. -/
inductive DecodingError where
  | UnrecognisedBytecode (w : Nat)
deriving DecidableEq, Repr

/-- The ordered opcode dispatch of `decode` in `src/interpreter/instruction.rs`,
translated exactly like `Chip8Verify.decodeNibbles` (the two Rust functions are
textually identical). -/
def decodeNibbles (n1 n2 n3 n4 b2 w : Nat) : Except DecodingError Instruction :=
  if n1 = 0 ∧ n2 = 0 ∧ n3 = 0xE ∧ n4 = 0 then .ok .ClearScreen
  else if n1 = 0 ∧ n2 = 0 ∧ n3 = 0xE ∧ n4 = 0xE then .ok .Return
  else if n1 = 1 then .ok (.Jump ((n2 <<< 8) + (n3 <<< 4) + n4))
  else if n1 = 2 then .ok (.Call ((n2 <<< 8) + (n3 <<< 4) + n4))
  else if n1 = 3 then .ok (.SkipIfEqual n2 (.Literal b2))
  else if n1 = 4 then .ok (.SkipIfNotEqual n2 (.Literal b2))
  else if n1 = 5 ∧ n4 = 0 then .ok (.SkipIfEqual n2 (.Register n3))
  else if n1 = 6 then .ok (.LoadRegister n2 (.Literal b2))
  else if n1 = 7 then .ok (.AddNoCarry n2 b2)
  else if n1 = 8 ∧ n4 = 0 then .ok (.LoadRegister n2 (.Register n3))
  else if n1 = 8 ∧ n4 = 1 then .ok (.Or n2 n3)
  else if n1 = 8 ∧ n4 = 2 then .ok (.And n2 n3)
  else if n1 = 8 ∧ n4 = 3 then .ok (.Xor n2 n3)
  else if n1 = 8 ∧ n4 = 4 then .ok (.AddWithCarry n2 n3)
  else if n1 = 8 ∧ n4 = 5 then .ok (.Sub n2 n3)
  else if n1 = 8 ∧ n4 = 6 then .ok (.ShiftRight n2)
  else if n1 = 8 ∧ n4 = 7 then .ok (.SubN n2 n3)
  else if n1 = 8 ∧ n4 = 0xE then .ok (.ShiftLeft n2)
  else if n1 = 9 ∧ n4 = 0 then .ok (.SkipIfNotEqual n2 (.Register n3))
  else if n1 = 0xA then .ok (.LoadMemoryRegister ((n2 <<< 8) + (n3 <<< 4) + n4))
  else if n1 = 0xB then .ok (.JumpPlusV0 ((n2 <<< 8) + (n3 <<< 4) + n4))
  else if n1 = 0xC then .ok (.LoadRandomWithMask n2 b2)
  else if n1 = 0xD then .ok (.Draw n2 n3 n4)
  else if n1 = 0xE ∧ n3 = 9 ∧ n4 = 0xE then .ok (.SkipIfKeyPressed n2)
  else if n1 = 0xE ∧ n3 = 0xA ∧ n4 = 1 then .ok (.SkipIfKeyNotPressed n2)
  else if n1 = 0xF ∧ n3 = 0 ∧ n4 = 7 then .ok (.LoadFromDelayTimer n2)
  else if n1 = 0xF ∧ n3 = 0 ∧ n4 = 0xA then .ok (.WaitForKeyPress n2)
  else if n1 = 0xF ∧ n3 = 1 ∧ n4 = 5 then .ok (.LoadIntoDelayTimer n2)
  else if n1 = 0xF ∧ n3 = 1 ∧ n4 = 8 then .ok (.LoadIntoSoundTimer n2)
  else if n1 = 0xF ∧ n3 = 1 ∧ n4 = 0xE then .ok (.AddToMemoryRegister n2)
  else if n1 = 0xF ∧ n3 = 2 ∧ n4 = 9 then .ok (.LoadDigitAddress n2)
  else if n1 = 0xF ∧ n3 = 3 ∧ n4 = 3 then .ok (.StoreBcdInMemory n2)
  else if n1 = 0xF ∧ n3 = 5 ∧ n4 = 5 then .ok (.StoreRegistersInMemory n2)
  else if n1 = 0xF ∧ n3 = 6 ∧ n4 = 5 then .ok (.ReadRegistersFromMemory n2)
  else .error (.UnrecognisedBytecode w)

/-- `decode` from `src/interpreter/instruction.rs`. -/
def decode (b1 b2 : Nat) : Except DecodingError Instruction :=
  decodeNibbles ((b1 &&& 0xF0) >>> 4) (b1 &&& 0x0F) ((b2 &&& 0xF0) >>> 4) (b2 &&& 0x0F)
    b2 ((b1 <<< 8) ||| b2)

end Legacy

/-- The evident correspondence between the two operand enums. -/
def sharedOfLegacyOperand : Legacy.Operand → Operand
  | .Register r => .Register r
  | .Literal b => .Literal b

/-- The evident one-to-one correspondence from the older instruction enum into
the shared one. -/
def sharedOfLegacy : Legacy.Instruction → Instruction
  | .ClearScreen => .ClearScreen
  | .Return => .Return
  | .Jump a => .Jump a
  | .Call a => .Call a
  | .SkipIfEqual x op => .SkipIfEqual x (sharedOfLegacyOperand op)
  | .SkipIfNotEqual x op => .SkipIfNotEqual x (sharedOfLegacyOperand op)
  | .LoadRegister x op => .LoadRegister x (sharedOfLegacyOperand op)
  | .AddNoCarry x b => .AddNoCarry x b
  | .Or x y => .Or x y
  | .And x y => .And x y
  | .Xor x y => .Xor x y
  | .AddWithCarry x y => .AddWithCarry x y
  | .Sub x y => .Sub x y
  | .ShiftRight x => .ShiftRight x
  | .SubN x y => .SubN x y
  | .ShiftLeft x => .ShiftLeft x
  | .LoadMemoryRegister a => .LoadMemoryRegister a
  | .JumpPlusV0 a => .JumpPlusV0 a
  | .LoadRandomWithMask x m => .LoadRandomWithMask x m
  | .Draw x y n => .Draw x y n
  | .SkipIfKeyPressed x => .SkipIfKeyPressed x
  | .SkipIfKeyNotPressed x => .SkipIfKeyNotPressed x
  | .LoadFromDelayTimer x => .LoadFromDelayTimer x
  | .WaitForKeyPress x => .WaitForKeyPress x
  | .LoadIntoDelayTimer x => .LoadIntoDelayTimer x
  | .LoadIntoSoundTimer x => .LoadIntoSoundTimer x
  | .AddToMemoryRegister x => .AddToMemoryRegister x
  | .LoadDigitAddress x => .LoadDigitAddress x
  | .StoreBcdInMemory x => .StoreBcdInMemory x
  | .StoreRegistersInMemory x => .StoreRegistersInMemory x
  | .ReadRegistersFromMemory x => .ReadRegistersFromMemory x

/-- Transport of whole decode results along the correspondence: the same
variant on success, an `UnrecognisedBytecode` error carrying the same word on
failure. -/
def sharedOfLegacyResult :
    Except Legacy.DecodingError Legacy.Instruction → Except DecodingError Instruction
  | .ok i => .ok (sharedOfLegacy i)
  | .error (.UnrecognisedBytecode w) => .error (.UnrecognisedBytecode w)

/-- Spec-side error oracle for `encode`, following the claim's words rather
than the source: a register operand above 15 (checked left to right, and
before `Draw`'s row count) gives `RegisterTooBig`, a 12-bit address field
with `a &&& 0xF000 ≠ 0` gives `AddressTooBig`, and a `Draw` row count above
15 gives `NibbleTooBig`; otherwise no error.  To be compared with the
errors actually produced by `encode`. -/
def encodeErrSpec (i : Instruction) : Option EncodingError :=
  match i with
  | .Nop | .ClearScreen | .Return => none
  | .Jump a | .Call a | .LoadMemoryRegister a | .JumpPlusV0 a =>
      if a &&& 0xF000 = 0 then none else some (.AddressTooBig a)
  | .SkipIfEqual x (.Register y) | .SkipIfNotEqual x (.Register y)
  | .LoadRegister x (.Register y) | .Or x y | .And x y | .Xor x y
  | .AddWithCarry x y | .Sub x y | .SubN x y =>
      if x > 15 then some (.RegisterTooBig x)
      else if y > 15 then some (.RegisterTooBig y)
      else none
  | .SkipIfEqual x (.Literal _) | .SkipIfNotEqual x (.Literal _)
  | .LoadRegister x (.Literal _) | .AddNoCarry x _ | .LoadRandomWithMask x _
  | .ShiftRight x | .ShiftLeft x | .SkipIfKeyPressed x
  | .SkipIfKeyNotPressed x | .LoadFromDelayTimer x | .WaitForKeyPress x
  | .LoadIntoDelayTimer x | .LoadIntoSoundTimer x | .AddToMemoryRegister x
  | .LoadDigitAddress x | .StoreBcdInMemory x | .StoreRegistersInMemory x
  | .ReadRegistersFromMemory x =>
      if x > 15 then some (.RegisterTooBig x) else none
  | .Draw x y n =>
      if x > 15 then some (.RegisterTooBig x)
      else if y > 15 then some (.RegisterTooBig y)
      else if n > 15 then some (.NibbleTooBig n)
      else none

/-! ## The interpreter (`interpreter/src/interpreter/mod.rs`)

`Chip8Interpreter` becomes a structure of total functions; the Rust array
indexing panics become explicit `Except` errors via checked accessors, and
byte/word arithmetic wraps explicitly (`% 256`, `% 65536`).  The timing
fields (`speed`, `last_timer_decrement`) are abstracted by a boolean
`elapsed` parameter, and `rand::random` by a `rand` parameter. -/

/-- Runtime panics of the Rust interpreter, as explicit error values. -/
inductive RtError where
  | MemoryOutOfBounds (i : Nat)
  | StackOutOfBounds (i : Nat)
  | RegisterOutOfBounds (i : Nat)
  | DisplayOutOfBounds (y x : Nat)
  | KeyOutOfBounds (i : Nat)
  | StackUnderflow
  | UnrecognisedBytecode (w : Nat)
deriving DecidableEq, Repr

/-- `Chip8Interpreter`: memory is 4096 bytes, the stack 16 words, 16 `V`
registers, and the display 32 rows of 64 pixels (`display y x`, `true` =
white), all represented as total functions with checked accessors. -/
structure Chip8 where
  memory : Nat → Nat
  stack : Nat → Nat
  v : Nat → Nat
  memoryRegister : Nat
  delayTimer : Nat
  soundTimer : Nat
  programCounter : Nat
  stackPointer : Nat
  display : Nat → Nat → Bool
  waitingForKeyPress : Option Nat

/-- `self.memory[i]` with the array bounds check. -/
def readMem (s : Chip8) (i : Nat) : Except RtError Nat :=
  if i < 4096 then .ok (s.memory i) else .error (.MemoryOutOfBounds i)

/-- `self.memory[i] = val` with the array bounds check. -/
def writeMem (s : Chip8) (i val : Nat) : Except RtError Chip8 :=
  if i < 4096 then
    .ok { s with memory := fun j => if j = i then val else s.memory j }
  else .error (.MemoryOutOfBounds i)

/-- `self.stack[i]` with the array bounds check. -/
def readStack (s : Chip8) (i : Nat) : Except RtError Nat :=
  if i < 16 then .ok (s.stack i) else .error (.StackOutOfBounds i)

/-- `self.stack[i] = val` with the array bounds check. -/
def writeStack (s : Chip8) (i val : Nat) : Except RtError Chip8 :=
  if i < 16 then
    .ok { s with stack := fun j => if j = i then val else s.stack j }
  else .error (.StackOutOfBounds i)

/-- Unchecked register update (used for the direct `v_registers[0xF]`
stores, whose index 15 is always in bounds). -/
def updReg (s : Chip8) (i val : Nat) : Chip8 :=
  { s with v := fun j => if j = i then val else s.v j }

/-- `self.reg(x)` / `v_registers[x]` with the array bounds check. -/
def readReg (s : Chip8) (x : Nat) : Except RtError Nat :=
  if x < 16 then .ok (s.v x) else .error (.RegisterOutOfBounds x)

/-- `*self.mut_reg(x) = val` with the array bounds check. -/
def writeReg (s : Chip8) (x val : Nat) : Except RtError Chip8 :=
  if x < 16 then .ok (updReg s x val) else .error (.RegisterOutOfBounds x)

/-- `self.display[y][x]` with the array bounds checks. -/
def readDisp (s : Chip8) (y x : Nat) : Except RtError Bool :=
  if y < 32 ∧ x < 64 then .ok (s.display y x)
  else .error (.DisplayOutOfBounds y x)

/-- Unchecked single-pixel display update. -/
def updDisp (s : Chip8) (y x : Nat) (p : Bool) : Chip8 :=
  { s with display := fun j i => if j = y ∧ i = x then p else s.display j i }

/-- `self.display[y][x] = p` with the array bounds checks. -/
def writeDisp (s : Chip8) (y x : Nat) (p : Bool) : Except RtError Chip8 :=
  if y < 32 ∧ x < 64 then .ok (updDisp s y x p)
  else .error (.DisplayOutOfBounds y x)

/-- `keys[i]` with the array bounds check (`Keys` is `[bool; 16]`). -/
def readKey (keys : Nat → Bool) (i : Nat) : Except RtError Bool :=
  if i < 16 then .ok (keys i) else .error (.KeyOutOfBounds i)

/-- `self.get_operand(op)`. -/
def getOperand (s : Chip8) : Operand → Except RtError Nat
  | .Register x => readReg s x
  | .Literal byte => .ok byte

/-- The sprite pixel for bit position `pos`: `row & (1 << pos) > 0`. -/
def bitAt (row pos : Nat) : Bool :=
  if row &&& (1 <<< pos) > 0 then true else false

/-- The inner pixel loop of `Draw`: one sprite row `row` at display row
`y`, iterating over the remaining bit positions with `x` the running
column; `break`s (returns the state) when `x ≥ 64`. -/
def drawBits (row y : Nat) : List Nat → Nat → Chip8 → Except RtError Chip8
  | [], _, s => .ok s
  | pos :: rest, x, s =>
      if x ≥ 64 then .ok s
      else do
        let old ← readDisp s y x
        let pixel := bitAt row pos
        let s1 ← writeDisp s y x (Bool.xor old pixel)
        let s2 := if old && pixel then updReg s1 0xF 1 else s1
        drawBits row y rest (x + 1) s2

/-- The outer row loop of `Draw`: for each remaining `offset`, read the
sprite row at `memory[base + offset]` FIRST, then `return` if `y ≥ 32`,
else draw the row's eight pixels starting at column `firstX`. -/
def drawRows (base firstX : Nat) : List Nat → Nat → Chip8 → Except RtError Chip8
  | [], _, s => .ok s
  | offset :: rest, y, s => do
      let row ← readMem s (base + offset)
      if y ≥ 32 then .ok s
      else do
        let s1 ← drawBits row y [7, 6, 5, 4, 3, 2, 1, 0] firstX s
        drawRows base firstX rest (y + 1) s1

/-- The `StoreRegistersInMemory` loop body: `memory[I + x] = reg(x)` for
each `x` in the list (the register read happens before the memory write,
matching Rust's right-to-left assignment evaluation). -/
def storeRegs (base : Nat) : List Nat → Chip8 → Except RtError Chip8
  | [], s => .ok s
  | x :: rest, s => do
      let val ← readReg s x
      let s1 ← writeMem s (base + x) val
      storeRegs base rest s1

/-- The `ReadRegistersFromMemory` loop body: `*mut_reg(x) = memory[I + x]`
for each `x` in the list. -/
def readRegs (base : Nat) : List Nat → Chip8 → Except RtError Chip8
  | [], s => .ok s
  | x :: rest, s => do
      let val ← readMem s (base + x)
      let s1 ← writeReg s x val
      readRegs base rest s1

/-- `Chip8Interpreter::execute`.  `fontStart` stands for the
`FONT_ADDRESS_START` constant (its defining module is not part of this
snapshot; the spec constrains it to `[0x000, 0x050]`), and `rand` for the
`rand::random::<u8>()` sample.  The `Nop` arm returns the state unchanged:
the snapshot's shared `Instruction` enum is used by `encode`/`codegen`
with a `Nop` variant that `decode` never produces, and the interpreter's
`match` has no arm for it. -/
def execute (fontStart rand : Nat) (s : Chip8) (instruction : Instruction)
    (keys : Nat → Bool) : Except RtError Chip8 :=
  match instruction with
  | .Nop => .ok s
  | .ClearScreen => .ok { s with display := fun _ _ => false }
  | .Return =>
      match s.stackPointer with
      | 0 => .error .StackUnderflow
      | sp + 1 => do
          let pc ← readStack s sp
          .ok { s with stackPointer := sp, programCounter := pc }
  | .Jump address => .ok { s with programCounter := address }
  | .Call address => do
      let s1 ← writeStack s s.stackPointer s.programCounter
      .ok { s1 with stackPointer := s1.stackPointer + 1, programCounter := address }
  | .SkipIfEqual x op => do
      let vx ← readReg s x
      let vo ← getOperand s op
      .ok (if vx = vo then { s with programCounter := (s.programCounter + 2) % 65536 } else s)
  | .SkipIfNotEqual x op => do
      let vx ← readReg s x
      let vo ← getOperand s op
      .ok (if vx ≠ vo then { s with programCounter := (s.programCounter + 2) % 65536 } else s)
  | .LoadRegister x op => do
      let vo ← getOperand s op
      writeReg s x vo
  | .AddNoCarry x byte => do
      let vx ← readReg s x
      writeReg s x ((vx + byte) % 256)
  | .Or x y => do
      let vy ← readReg s y
      let vx ← readReg s x
      writeReg s x (vx ||| vy)
  | .And x y => do
      let vy ← readReg s y
      let vx ← readReg s x
      writeReg s x (vx &&& vy)
  | .Xor x y => do
      let vy ← readReg s y
      let vx ← readReg s x
      writeReg s x (vx ^^^ vy)
  | .AddWithCarry x y => do
      let vx ← readReg s x
      let vy ← readReg s y
      let s1 ← writeReg s x ((vx + vy) % 256)
      writeReg s1 0xF (if vx + vy ≥ 256 then 1 else 0)
  | .Sub x y => do
      let vx ← readReg s x
      let vy ← readReg s y
      let s1 ← writeReg s x ((vx + 256 - vy) % 256)
      writeReg s1 0xF (if vx < vy then 1 else 0)
  | .ShiftRight x => do
      let vx ← readReg s x
      let s1 ← writeReg s 0xF (vx &&& 1)
      let vx2 ← readReg s1 x
      writeReg s1 x (vx2 >>> 1)
  | .SubN x y => do
      let vy ← readReg s y
      let vx ← readReg s x
      let s1 ← writeReg s x ((vy + 256 - vx) % 256)
      writeReg s1 0xF (if vy < vx then 1 else 0)
  | .ShiftLeft x => do
      let vx ← readReg s x
      let s1 ← writeReg s 0xF (vx &&& 0x80)
      let vx2 ← readReg s1 x
      writeReg s1 x ((vx2 <<< 1) % 256)
  | .LoadMemoryRegister address => .ok { s with memoryRegister := address }
  | .JumpPlusV0 address => do
      let r0 ← readReg s 0
      .ok { s with programCounter := (address + r0) &&& 0xFFF }
  | .LoadRandomWithMask x mask => writeReg s x (rand &&& mask)
  | .Draw x y n => do
      let vx ← readReg s x
      let vy ← readReg s y
      let s0 := updReg s 0xF 0
      drawRows s0.memoryRegister (vx % 64) (List.range n) (vy % 32) s0
  | .SkipIfKeyPressed x => do
      let vx ← readReg s x
      let pressed ← readKey keys vx
      .ok (if pressed then { s with programCounter := (s.programCounter + 2) % 65536 } else s)
  | .SkipIfKeyNotPressed x => do
      let vx ← readReg s x
      let pressed ← readKey keys vx
      .ok (if pressed then s else { s with programCounter := (s.programCounter + 2) % 65536 })
  | .LoadFromDelayTimer x => writeReg s x s.delayTimer
  | .WaitForKeyPress x => .ok { s with waitingForKeyPress := some x }
  | .LoadIntoDelayTimer x => do
      let vx ← readReg s x
      .ok { s with delayTimer := vx }
  | .LoadIntoSoundTimer x => do
      let vx ← readReg s x
      .ok { s with soundTimer := vx }
  | .AddToMemoryRegister x => do
      let vx ← readReg s x
      .ok { s with memoryRegister := (s.memoryRegister + vx) &&& 0xFFF }
  | .LoadDigitAddress x => do
      let vx ← readReg s x
      .ok { s with memoryRegister := fontStart + 5 * (vx &&& 0xF) }
  | .StoreBcdInMemory x => do
      let num ← readReg s x
      let hundreds := (num - num % 100) / 100
      let tens := (num - num % 10 - hundreds * 100) / 10
      let units := num - hundreds * 100 - tens * 10
      let s1 ← writeMem s s.memoryRegister hundreds
      let s2 ← writeMem s1 (s.memoryRegister + 1) tens
      writeMem s2 (s.memoryRegister + 2) units
  | .StoreRegistersInMemory regNum => storeRegs s.memoryRegister (List.range (regNum + 1)) s
  | .ReadRegistersFromMemory regNum => readRegs s.memoryRegister (List.range (regNum + 1)) s

/-- `Chip8Interpreter::fetch`: read the two bytes at `PC`, then
`pc += 2` (`u16` wrap) followed by `pc %= memory.len()` (= 4096). -/
def fetch (s : Chip8) : Except RtError (Nat × Nat × Chip8) := do
  let b1 ← readMem s s.programCounter
  let b2 ← readMem s (s.programCounter + 1)
  .ok (b1, b2, { s with programCounter := ((s.programCounter + 2) % 65536) % 4096 })

/-- `decrement_timers`, with the `≥ 1/60 s elapsed` test abstracted by the
boolean `elapsed`; `u8::saturating_sub 1` is truncated subtraction. -/
def decrementTimers (elapsed : Bool) (s : Chip8) : Chip8 :=
  if elapsed then
    { s with delayTimer := s.delayTimer - 1, soundTimer := s.soundTimer - 1 }
  else s

/-- The state transition of `step` before the timer handling: either
resolve a pending `WaitForKeyPress` via the first pressed key (ascending
scan by `iter().enumerate().find`), or fetch, decode (panicking on an
unrecognised word) and execute. -/
def stepState (fontStart rand : Nat) (s : Chip8) (keys : Nat → Bool) :
    Except RtError Chip8 :=
  match s.waitingForKeyPress with
  | some x =>
      match (List.range 16).find? (fun i => keys i) with
      | some keyNum => do
          let s1 ← writeReg s x keyNum
          .ok { s1 with waitingForKeyPress := none }
      | none => .ok s
  | none => do
      let (b1, b2, s1) ← fetch s
      match decode b1 b2 with
      | .ok instruction => execute fontStart rand s1 instruction keys
      | .error (.UnrecognisedBytecode w) => .error (.UnrecognisedBytecode w)

/-- `Chip8Interpreter::step`: the state transition, then the timer
decrement, then `Some(display)` (modelled by returning the display next
to the new state). -/
def step (fontStart rand : Nat) (elapsed : Bool) (s : Chip8) (keys : Nat → Bool) :
    Except RtError (Chip8 × (Nat → Nat → Bool)) := do
  let s1 ← stepState fontStart rand s keys
  let s2 := decrementTimers elapsed s1
  .ok (s2, s2.display)

/-- Modelled from the spec: `init_memory` (its module is missing from this
snapshot).  A fresh 4096-byte zero image with the 80-byte font at
`fontStart` and the ROM bytes copied starting at `0x200`. -/
def init_memory (fontStart : Nat) (font : Nat → Nat) (rom : List Nat) : Nat → Nat :=
  fun a =>
    if fontStart ≤ a ∧ a < fontStart + 80 then font (a - fontStart)
    else if 0x200 ≤ a ∧ a < 0x200 + rom.length then rom.getD (a - 0x200) 0
    else 0

/-- `Chip8Interpreter::new`: zeroed registers, stack and display,
`PC = 0x200`, `SP = 0`, memory from `init_memory`. -/
def Chip8.new (fontStart : Nat) (font : Nat → Nat) (rom : List Nat) : Chip8 :=
  { memory := init_memory fontStart font rom
    stack := fun _ => 0
    v := fun _ => 0
    memoryRegister := 0
    delayTimer := 0
    soundTimer := 0
    programCounter := 0x200
    stackPointer := 0
    display := fun _ _ => false
    waitingForKeyPress := none }

/-- Modelled from the spec's words: scan `keys[i..]` in ascending index
order with `fuel` indices left, returning the first pressed index. -/
def scanKeys (keys : Nat → Bool) : Nat → Nat → Option Nat
  | _, 0 => none
  | i, fuel + 1 => if keys i then some i else scanKeys keys (i + 1) fuel

/-- Modelled from the spec's words: fetch the two bytes at `PC` and
advance `PC` by 2 modulo 4096. -/
def fetchSpec (s : Chip8) : Except RtError (Nat × Nat × Chip8) := do
  let b1 ← readMem s s.programCounter
  let b2 ← readMem s (s.programCounter + 1)
  .ok (b1, b2, { s with programCounter := (s.programCounter + 2) % 4096 })

/-- Modelled from the spec's words: the pre-timer state transition of a
step — on a pending wait, scan `keys[0..16]` ascending and on the first
pressed key write its index into `Vx` and clear the flag (nothing
otherwise); else fetch (PC + 2 mod 4096), decode and execute. -/
def stepSpecState (fontStart rand : Nat) (s : Chip8) (keys : Nat → Bool) :
    Except RtError Chip8 :=
  match s.waitingForKeyPress with
  | some x =>
      match scanKeys keys 0 16 with
      | some keyNum => do
          let s1 ← writeReg s x keyNum
          .ok { s1 with waitingForKeyPress := none }
      | none => .ok s
  | none => do
      let (b1, b2, s1) ← fetchSpec s
      match decode b1 b2 with
      | .ok instruction => execute fontStart rand s1 instruction keys
      | .error (.UnrecognisedBytecode w) => .error (.UnrecognisedBytecode w)

/-- Modelled from the spec's words: a full step is the transition followed
by the conditional saturating timer decrement, always returning the
current display. -/
def stepSpec (fontStart rand : Nat) (elapsed : Bool) (s : Chip8) (keys : Nat → Bool) :
    Except RtError (Chip8 × (Nat → Nat → Bool)) := do
  let s1 ← stepSpecState fontStart rand s keys
  let s2 := decrementTimers elapsed s1
  .ok (s2, s2.display)

/-- A concrete interpreter state for witnesses: `V2 = 5`, `V3 = 7`,
`V4 = 0x90`, everything else zeroed. -/
def c6state : Chip8 :=
  { memory := fun _ => 0
    stack := fun _ => 0
    v := fun j => if j = 2 then 5 else if j = 3 then 7 else if j = 4 then 0x90 else 0
    memoryRegister := 0
    delayTimer := 0
    soundTimer := 0
    programCounter := 0x200
    stackPointer := 0
    display := fun _ _ => false
    waitingForKeyPress := none }

/-- The ROM of the C3 trace: `jmp 0xFFC` at `0x200`, then zero padding, so
that the two bytes of `se v0, 0` sit exactly at addresses `0xFFC/0xFFD`. -/
def c3rom : List Nat := [0x1F, 0xFC] ++ List.replicate 3578 0 ++ [0x30, 0x00]

/-- A state with `I = 4095` and `V1 = 31`, for exhibiting the
read-before-check behaviour of `Draw`. -/
def c10state : Chip8 :=
  { memory := fun _ => 0
    stack := fun _ => 0
    v := fun j => if j = 1 then 31 else 0
    memoryRegister := 4095
    delayTimer := 0
    soundTimer := 0
    programCounter := 0x200
    stackPointer := 0
    display := fun _ _ => false
    waitingForKeyPress := none }

/-! ## The assembler's code generation (`assembler/src/codegen.rs`, AST from
`assembler/src/ast.rs`)

`GeneralRegisterName` (`V0 = 0, …, Vf = 15` in `tokens.rs`) is modelled as
its numeric value; alias names (`&'s str`) as `String`; the `HashMap` as an
association list with shadowing insert (duplicates abort codegen before
shadowing could matter). -/

/-- `AliasableThing` from `ast.rs`. -/
inductive AliasableThing where
  | RawData (data : Nat)
  | Register (r : Nat)
deriving DecidableEq, Repr

/-- `OrAlias` from `ast.rs`. -/
inductive OrAlias (T : Type) where
  | Alias (name : String)
  | Concrete (t : T)
deriving DecidableEq, Repr

/-- `RegOrByte` from `ast.rs`. -/
inductive RegOrByte where
  | Register (r : Nat)
  | LiteralByte (b : Nat)
deriving DecidableEq, Repr

/-- `PseudoInstruction` from `ast.rs`. -/
inductive PseudoInstruction where
  | Nop
  | Cls
  | Ret
  | Jmp (addr : OrAlias Nat)
  | JmpPlus (reg : OrAlias Nat) (addr : OrAlias Nat)
  | Call (addr : OrAlias Nat)
  | Se (reg : OrAlias Nat) (rb : OrAlias RegOrByte)
  | Sne (reg : OrAlias Nat) (rb : OrAlias RegOrByte)
  | Ld (reg : OrAlias Nat) (rb : OrAlias RegOrByte)
  | LdIndex (addr : OrAlias Nat)
  | LdFromK (reg : OrAlias Nat)
  | LdFromDt (reg : OrAlias Nat)
  | Add (reg : OrAlias Nat) (rb : OrAlias RegOrByte)
  | AddIndex (reg : OrAlias Nat)
  | Or (r1 r2 : OrAlias Nat)
  | And (r1 r2 : OrAlias Nat)
  | Xor (r1 r2 : OrAlias Nat)
  | Sub (r1 r2 : OrAlias Nat)
  | Subn (r1 r2 : OrAlias Nat)
  | Shr (reg : OrAlias Nat)
  | Shl (reg : OrAlias Nat)
  | Rnd (reg : OrAlias Nat) (mask : OrAlias Nat)
  | Drw (r1 r2 : OrAlias Nat) (nibble : OrAlias Nat)
  | Skp (reg : OrAlias Nat)
  | Sknp (reg : OrAlias Nat)
  | Delay (reg : OrAlias Nat)
  | Sound (reg : OrAlias Nat)
  | Font (reg : OrAlias Nat)
  | Bcd (reg : OrAlias Nat)
  | Stor (reg : OrAlias Nat)
  | Rstr (reg : OrAlias Nat)
deriving DecidableEq, Repr

/-- `Stmt` from `ast.rs`. -/
inductive Stmt where
  | AliasDefinition (name : String) (thing : AliasableThing)
  | RawDataDefinition (data : List Nat)
  | Label (name : String)
  | PseudoInstruction (pi : PseudoInstruction)
  | Include (path : String)
deriving DecidableEq, Repr

/-- `CodegenError` from `codegen.rs`; `JmppPanic` models the
`report_error` + `panic!` on a `jmpp` whose register is not `V0`. -/
inductive CodegenError where
  | AliasAlreadyDefined (name : String)
  | LabelAlreadyDefined (name : String)
  | AliasNotDefined (name : String)
  | AliasShouldBeRegister (name : String)
  | AliasShouldBeNumber (name : String)
  | EncodingError (e : EncodingError)
  | AliasedLiteralTooBig (name : String) (v maxv : Nat)
  | JmppPanic
deriving DecidableEq, Repr

/-- The alias map (`HashMap<&str, AliasableThing>`), as an assoc list. -/
def AliasMap : Type := List (String × AliasableThing)

/-- The first pass of `codegen`: walk the statements computing the
emission offset (a `u16`, so wrapping at 65536), binding each alias
definition and each label (to the current offset) in the map, erroring on
duplicates; raw data advances the offset by its length and each
pseudo-instruction by exactly 2. -/
def pass1 : List Stmt → Nat → AliasMap →
    Except CodegenError (Nat × AliasMap)
  | [], offset, m => .ok (offset, m)
  | .AliasDefinition name thing :: rest, offset, m =>
      if (List.lookup name m).isSome then .error (.AliasAlreadyDefined name)
      else pass1 rest offset ((name, thing) :: m)
  | .RawDataDefinition data :: rest, offset, m =>
      pass1 rest ((offset + data.length) % 65536) m
  | .Label name :: rest, offset, m =>
      if (List.lookup name m).isSome then .error (.LabelAlreadyDefined name)
      else pass1 rest offset ((name, .RawData offset) :: m)
  | .PseudoInstruction _ :: rest, offset, m =>
      pass1 rest ((offset + 2) % 65536) m
  | .Include _ :: rest, offset, m => pass1 rest offset m

/-- `resolve_addr!` from `codegen.rs`. -/
def resolve_addr (m : AliasMap) : OrAlias Nat → Except CodegenError Nat
  | .Alias a =>
      match List.lookup a m with
      | none => .error (.AliasNotDefined a)
      | some (.RawData data) => .ok data
      | some (.Register _) => .error (.AliasShouldBeNumber a)
  | .Concrete addr => .ok addr

/-- `resolve_reg!` from `codegen.rs`. -/
def resolve_reg (m : AliasMap) : OrAlias Nat → Except CodegenError Nat
  | .Alias a =>
      match List.lookup a m with
      | none => .error (.AliasNotDefined a)
      | some (.RawData _) => .error (.AliasShouldBeRegister a)
      | some (.Register register) => .ok register
  | .Concrete reg => .ok reg

/-- `resolve_reg_or_byte!` from `codegen.rs`: an alias resolving to raw
data is a byte if it fits in `0xFF`, a register alias stays a register. -/
def resolve_reg_or_byte {A : Type} (m : AliasMap) (mkReg mkByte : Nat → A) :
    OrAlias RegOrByte → Except CodegenError A
  | .Alias a =>
      match List.lookup a m with
      | none => .error (.AliasNotDefined a)
      | some (.RawData data) =>
          if data > 0xFF then .error (.AliasedLiteralTooBig a data 0xFF)
          else .ok (mkByte data)
      | some (.Register r) => .ok (mkReg r)
  | .Concrete (.Register r) => .ok (mkReg r)
  | .Concrete (.LiteralByte b) => .ok (mkByte b)

/-- The inline alias resolution for `Rnd`'s mask and `Drw`'s nibble: raw
data bounded by `maxv` (`0xFF` for `Rnd`, `0xF` for `Drw`). -/
def resolve_bounded (m : AliasMap) (maxv : Nat) :
    OrAlias Nat → Except CodegenError Nat
  | .Alias a =>
      match List.lookup a m with
      | none => .error (.AliasNotDefined a)
      | some (.RawData data) =>
          if data > maxv then .error (.AliasedLiteralTooBig a data maxv)
          else .ok data
      | some (.Register _) => .error (.AliasShouldBeNumber a)
  | .Concrete byte => .ok byte

/-- The statement-to-instruction lowering inside `codegen`'s second pass. -/
def toInstruction (m : AliasMap) : PseudoInstruction →
    Except CodegenError Instruction
  | .Nop => .ok .Nop
  | .Cls => .ok .ClearScreen
  | .Ret => .ok .Return
  | .Jmp addr => do
      let a ← resolve_addr m addr
      .ok (.Jump a)
  | .JmpPlus reg addr => do
      let r ← resolve_reg m reg
      if r ≠ 0 then .error .JmppPanic
      else do
        let a ← resolve_addr m addr
        .ok (.JumpPlusV0 a)
  | .Call addr => do
      let a ← resolve_addr m addr
      .ok (.Call a)
  | .Se reg rb => do
      let r1 ← resolve_reg m reg
      resolve_reg_or_byte m
        (fun r2 => .SkipIfEqual r1 (.Register r2))
        (fun data => .SkipIfEqual r1 (.Literal data)) rb
  | .Sne reg rb => do
      let r1 ← resolve_reg m reg
      resolve_reg_or_byte m
        (fun r2 => .SkipIfNotEqual r1 (.Register r2))
        (fun data => .SkipIfNotEqual r1 (.Literal data)) rb
  | .Ld reg rb => do
      let r1 ← resolve_reg m reg
      resolve_reg_or_byte m
        (fun r2 => .LoadRegister r1 (.Register r2))
        (fun data => .LoadRegister r1 (.Literal data)) rb
  | .LdIndex addr => do
      let a ← resolve_addr m addr
      .ok (.LoadMemoryRegister a)
  | .LdFromK reg => do
      let r ← resolve_reg m reg
      .ok (.WaitForKeyPress r)
  | .LdFromDt reg => do
      let r ← resolve_reg m reg
      .ok (.LoadFromDelayTimer r)
  | .Add reg rb => do
      let r1 ← resolve_reg m reg
      resolve_reg_or_byte m
        (fun r2 => .AddWithCarry r1 r2)
        (fun data => .AddNoCarry r1 data) rb
  | .AddIndex reg => do
      let r ← resolve_reg m reg
      .ok (.AddToMemoryRegister r)
  | .Or r1 r2 => do
      let a ← resolve_reg m r1
      let b ← resolve_reg m r2
      .ok (.Or a b)
  | .And r1 r2 => do
      let a ← resolve_reg m r1
      let b ← resolve_reg m r2
      .ok (.And a b)
  | .Xor r1 r2 => do
      let a ← resolve_reg m r1
      let b ← resolve_reg m r2
      .ok (.Xor a b)
  | .Sub r1 r2 => do
      let a ← resolve_reg m r1
      let b ← resolve_reg m r2
      .ok (.Sub a b)
  | .Subn r1 r2 => do
      let a ← resolve_reg m r1
      let b ← resolve_reg m r2
      .ok (.SubN a b)
  | .Shr reg => do
      let r ← resolve_reg m reg
      .ok (.ShiftRight r)
  | .Shl reg => do
      let r ← resolve_reg m reg
      .ok (.ShiftLeft r)
  | .Rnd reg mask => do
      let r ← resolve_reg m reg
      let b ← resolve_bounded m 0xFF mask
      .ok (.LoadRandomWithMask r b)
  | .Drw r1 r2 nibble => do
      let a ← resolve_reg m r1
      let b ← resolve_reg m r2
      let n ← resolve_bounded m 0xF nibble
      .ok (.Draw a b n)
  | .Skp reg => do
      let r ← resolve_reg m reg
      .ok (.SkipIfKeyPressed r)
  | .Sknp reg => do
      let r ← resolve_reg m reg
      .ok (.SkipIfKeyNotPressed r)
  | .Delay reg => do
      let r ← resolve_reg m reg
      .ok (.LoadIntoDelayTimer r)
  | .Sound reg => do
      let r ← resolve_reg m reg
      .ok (.LoadIntoSoundTimer r)
  | .Font reg => do
      let r ← resolve_reg m reg
      .ok (.LoadDigitAddress r)
  | .Bcd reg => do
      let r ← resolve_reg m reg
      .ok (.StoreBcdInMemory r)
  | .Stor reg => do
      let r ← resolve_reg m reg
      .ok (.StoreRegistersInMemory r)
  | .Rstr reg => do
      let r ← resolve_reg m reg
      .ok (.ReadRegistersFromMemory r)

/-- The second pass of `codegen`: emit raw data verbatim and each
instruction as its two encoded bytes. -/
def pass2 (m : AliasMap) : List Stmt → Except CodegenError (List Nat)
  | [] => .ok []
  | .AliasDefinition _ _ :: rest => pass2 m rest
  | .Label _ :: rest => pass2 m rest
  | .RawDataDefinition data :: rest => do
      let tail ← pass2 m rest
      .ok (data ++ tail)
  | .PseudoInstruction pi :: rest => do
      let instruction ← toInstruction m pi
      match encode instruction with
      | .error e => .error (.EncodingError e)
      | .ok p => do
          let tail ← pass2 m rest
          .ok (p.1 :: p.2 :: tail)
  | .Include _ :: rest => pass2 m rest

/-- `codegen` from `codegen.rs`: the first pass starts at the program
entry `0x200` with an empty alias map. -/
def codegen (statements : List Stmt) : Except CodegenError (List Nat) := do
  let r ← pass1 statements 0x200 []
  pass2 r.2 statements

/-- The byte cost of a statement list: raw-data lengths plus 2 per
pseudo-instruction. -/
def stmtsCost : List Stmt → Nat
  | [] => 0
  | .RawDataDefinition data :: rest => data.length + stmtsCost rest
  | .PseudoInstruction _ :: rest => 2 + stmtsCost rest
  | _ :: rest => stmtsCost rest

/-- The spec's example program:
`define delta 5` / `start:` / `ld v0, delta` / `jmp start`. -/
def c8prog : List Stmt :=
  [.AliasDefinition "delta" (.RawData 5),
   .Label "start",
   .PseudoInstruction (.Ld (.Concrete 0) (.Alias "delta")),
   .PseudoInstruction (.Jmp (.Alias "start"))]

/-! ## Bit-arithmetic toolkit

Helper lemmas that convert the masking, shifting and or-ing patterns of the
Rust code into plain division/remainder arithmetic, so that `omega` can
finish the goals. -/

/-- Disjoint bitwise or is addition. -/
theorem lor_eq_add : ∀ a b : Nat, a &&& b = 0 → a ||| b = a + b := by
  intro a
  induction a using Nat.binaryRec with
  | z => intro b _; simp
  | f abit a ih =>
    intro b
    induction b using Nat.binaryRec with
    | z => intro _; simp
    | f bbit b _ =>
      intro h
      rw [Nat.land_bit, Nat.bit_eq_zero_iff] at h
      rw [Nat.lor_bit, ih b h.1]
      have hb : (abit && bbit) = false := h.2
      rw [Nat.bit_val, Nat.bit_val, Nat.bit_val]
      cases abit <;> cases bbit
      · simp; omega
      · simp; omega
      · simp; omega
      · exact absurd hb (by simp)

/-- Masking with a shifted mask is shifting, masking, and shifting back. -/
theorem land_shiftLeft (a m k : Nat) : a &&& (m <<< k) = ((a >>> k) &&& m) <<< k := by
  apply Nat.eq_of_testBit_eq
  intro i
  rw [Nat.testBit_land, Nat.testBit_shiftLeft, Nat.testBit_shiftLeft, Nat.testBit_land,
    Nat.testBit_shiftRight]
  by_cases h : k ≤ i
  · have hik : k + (i - k) = i := by omega
    simp only [ge_iff_le, h, decide_True, Bool.true_and, hik]
  · simp only [ge_iff_le, h, decide_False, Bool.false_and, Bool.and_false]

/-- Right shift distributes over bitwise or. -/
theorem shiftRight_lor (a b k : Nat) : (a ||| b) >>> k = (a >>> k) ||| (b >>> k) := by
  apply Nat.eq_of_testBit_eq
  intro i
  simp [Nat.testBit_shiftRight, Nat.testBit_or]

/-- A value below `2^k` shares no bits with a value shifted left by `k`. -/
theorem land_small_shl {q : Nat} (k p : Nat) (hq : q < 2 ^ k) : q &&& (p <<< k) = 0 := by
  rw [land_shiftLeft, Nat.shiftRight_eq_div_pow, Nat.div_eq_of_lt hq]
  simp

theorem nib_lo (a : Nat) : a &&& 0x0F = a % 16 := by
  have h := Nat.and_pow_two_sub_one_eq_mod a 4
  norm_num at h
  exact h

theorem nib_hi (a : Nat) : (a &&& 0xF0) >>> 4 = a / 16 % 16 := by
  rw [show (0xF0 : Nat) = 15 <<< 4 from rfl, land_shiftLeft]
  simp only [Nat.shiftLeft_eq, Nat.shiftRight_eq_div_pow]
  have h := Nat.and_pow_two_sub_one_eq_mod (a / 2 ^ 4) 4
  norm_num at h ⊢
  exact h

theorem land_0xFF (a : Nat) : a &&& 0xFF = a % 256 := by
  have h := Nat.and_pow_two_sub_one_eq_mod a 8
  norm_num at h
  exact h

theorem land_0xFFF (a : Nat) : a &&& 0xFFF = a % 4096 := by
  have h := Nat.and_pow_two_sub_one_eq_mod a 12
  norm_num at h
  exact h

theorem land_0xF000 (a : Nat) : a &&& 0xF000 = a / 4096 % 16 * 4096 := by
  rw [show (0xF000 : Nat) = 15 <<< 12 from rfl, land_shiftLeft]
  simp only [Nat.shiftLeft_eq, Nat.shiftRight_eq_div_pow]
  have h := Nat.and_pow_two_sub_one_eq_mod (a / 2 ^ 12) 4
  norm_num at h ⊢
  exact h

theorem land_0x80 (a : Nat) : a &&& 0x80 = a / 128 % 2 * 128 := by
  rw [show (0x80 : Nat) = 1 <<< 7 from rfl, land_shiftLeft]
  simp only [Nat.shiftLeft_eq, Nat.shiftRight_eq_div_pow, Nat.and_one_is_mod]

theorem shr8_eq (a : Nat) : a >>> 8 = a / 256 := by
  rw [Nat.shiftRight_eq_div_pow]

theorem shl_eq (a k : Nat) : a <<< k = a * 2 ^ k := Nat.shiftLeft_eq a k

/-- `decode` with the nibble extraction rewritten into `/` and `%` form. -/
theorem decode_eq_div_mod (b1 b2 : Nat) :
    decode b1 b2 =
      decodeNibbles (b1 / 16 % 16) (b1 % 16) (b2 / 16 % 16) (b2 % 16) b2
        ((b1 <<< 8) ||| b2) := by
  rw [decode, nib_hi, nib_lo, nib_hi, nib_lo]

/-! ## Word assembly lemmas

`encode` builds each opcode word by or-ing nibble-aligned fields together.
These lemmas turn those ors into sums, and `toBeBytes` into `/` and `%`. -/

theorem pow2_4 : (2 : Nat) ^ 4 = 16 := by norm_num

theorem pow2_8 : (2 : Nat) ^ 8 = 256 := by norm_num

theorem pow2_12 : (2 : Nat) ^ 12 = 4096 := by norm_num

theorem toBeBytes_eq (w : Nat) : toBeBytes w = (w / 256 % 256, w % 256) := by
  unfold toBeBytes
  rw [shr8_eq, land_0xFF, land_0xFF]

/-- Address-style opcode word: a 12-bit payload or-ed below the top nibble. -/
theorem word_addr (c1 a : Nat) (ha : a < 4096) : (c1 * 4096) ||| a = c1 * 4096 + a := by
  apply lor_eq_add
  rw [Nat.land_comm, show c1 * 4096 = c1 <<< 12 by rw [shl_eq]; norm_num]
  exact land_small_shl 12 c1 (pow2_12 ▸ ha)

/-- Single-register opcode word: a register in the `x` slot over a fixed low byte. -/
theorem word_one_reg (c1 cL x : Nat) (hL : cL < 256) (hx : x < 16) :
    (c1 * 4096 + cL) ||| (x <<< 8) = c1 * 4096 + x * 256 + cL := by
  have hd : (c1 * 4096 + cL) &&& (x <<< 8) = 0 := by
    rw [land_shiftLeft, shr8_eq, show (c1 * 4096 + cL) / 256 = c1 * 16 by omega,
      Nat.land_comm, show c1 * 16 = c1 <<< 4 by rw [shl_eq]; norm_num,
      land_small_shl 4 c1 (pow2_4 ▸ hx), Nat.zero_shiftLeft]
  rw [lor_eq_add _ _ hd, shl_eq, pow2_8]
  ring

/-- Two-register opcode word: registers in the `x` and `y` slots over a fixed
top and bottom nibble. -/
theorem word_two_reg (c1 c4 x y : Nat) (h4 : c4 < 16) (hx : x < 16) (hy : y < 16) :
    ((c1 * 4096 + c4) ||| (x <<< 8)) ||| (y <<< 4) = c1 * 4096 + x * 256 + y * 16 + c4 := by
  rw [word_one_reg c1 c4 x (by omega) hx]
  have hd : (c1 * 4096 + x * 256 + c4) &&& (y <<< 4) = 0 := by
    rw [land_shiftLeft, Nat.shiftRight_eq_div_pow, pow2_4,
      show (c1 * 4096 + x * 256 + c4) / 16 = c1 * 256 + x * 16 by omega,
      Nat.land_comm, show c1 * 256 + x * 16 = (c1 * 16 + x) <<< 4 by rw [shl_eq, pow2_4]; ring,
      land_small_shl 4 (c1 * 16 + x) (pow2_4 ▸ hy), Nat.zero_shiftLeft]
  rw [lor_eq_add _ _ hd, shl_eq, pow2_4]
  ring

/-- Register-plus-byte opcode word: a register in the `x` slot and a raw byte. -/
theorem word_reg_byte (c1 x b : Nat) (hx : x < 16) (hb : b < 256) :
    ((c1 * 4096) ||| (x <<< 8)) ||| b = c1 * 4096 + x * 256 + b := by
  have h0 := word_one_reg c1 0 x (by omega) hx
  simp only [Nat.add_zero] at h0
  rw [h0]
  have hd : (c1 * 4096 + x * 256) &&& b = 0 := by
    rw [Nat.land_comm, show c1 * 4096 + x * 256 = (c1 * 16 + x) <<< 8 by rw [shl_eq, pow2_8]; ring]
    exact land_small_shl 8 (c1 * 16 + x) (pow2_8 ▸ hb)
  rw [lor_eq_add _ _ hd]

/-- `Draw` opcode word: two registers and a nibble payload. -/
theorem word_draw (c1 x y n : Nat) (hx : x < 16) (hy : y < 16) (hn : n < 16) :
    (((c1 * 4096) ||| (x <<< 8)) ||| (y <<< 4)) ||| n = c1 * 4096 + x * 256 + y * 16 + n := by
  have h0 := word_two_reg c1 0 x y (by omega) hx hy
  simp only [Nat.add_zero] at h0
  rw [h0]
  have hd : (c1 * 4096 + x * 256 + y * 16) &&& n = 0 := by
    rw [Nat.land_comm,
      show c1 * 4096 + x * 256 + y * 16 = (c1 * 256 + x * 16 + y) <<< 4 by rw [shl_eq, pow2_4]; ring]
    exact land_small_shl 4 (c1 * 256 + x * 16 + y) (pow2_4 ▸ hn)
  rw [lor_eq_add _ _ hd]

/-! ## Round-trip machinery for C1

For each opcode shape, a lemma taking the encoded byte pair to the decoded
instruction. -/

/-- Feeding `decode` a byte pair split into nibbles dispatches on those nibbles. -/
theorem decode_at_nibbles (c x y t : Nat) (hc : c < 16) (hx : x < 16) (hy : y < 16)
    (ht : t < 16) :
    decode (c * 16 + x) (y * 16 + t) =
      decodeNibbles c x y t (y * 16 + t) (((c * 16 + x) <<< 8) ||| (y * 16 + t)) := by
  rw [decode_eq_div_mod,
    show (c * 16 + x) / 16 % 16 = c by omega, show (c * 16 + x) % 16 = x by omega,
    show (y * 16 + t) / 16 % 16 = y by omega, show (y * 16 + t) % 16 = t by omega]

theorem c1_addr (c1 : Nat) (mk : Nat → Instruction) (hc1 : c1 < 16)
    (hdec : ∀ n2 n3 n4 b2 w, n2 < 16 → n3 < 16 → n4 < 16 →
      decodeNibbles c1 n2 n3 n4 b2 w = .ok (mk ((n2 <<< 8) + (n3 <<< 4) + n4)))
    (a b1 b2 : Nat) (ha : a < 4096)
    (henc : toBeBytes ((c1 * 4096) ||| a) = (b1, b2)) :
    decode b1 b2 = .ok (mk a) := by
  rw [word_addr c1 a ha, toBeBytes_eq,
    show (c1 * 4096 + a) / 256 % 256 = c1 * 16 + a / 256 by omega,
    show (c1 * 4096 + a) % 256 = a % 256 by omega] at henc
  obtain ⟨h1, h2⟩ := Prod.mk.injEq .. ▸ henc
  subst h1 h2
  rw [show a % 256 = a % 256 / 16 * 16 + a % 16 by omega,
    decode_at_nibbles c1 (a / 256) (a % 256 / 16) (a % 16) hc1 (by omega) (by omega) (by omega),
    hdec (a / 256) (a % 256 / 16) (a % 16) _ _ (by omega) (by omega) (by omega)]
  have : (a / 256) <<< 8 + (a % 256 / 16) <<< 4 + a % 16 = a := by
    rw [shl_eq, shl_eq, pow2_8, pow2_4]; omega
  rw [this]

theorem c1_one_reg (c1 cH cT : Nat) (mk : Nat → Instruction) (hc1 : c1 < 16)
    (hH : cH < 16) (hT : cT < 16)
    (hdec : ∀ x b2 w, x < 16 → decodeNibbles c1 x cH cT b2 w = .ok (mk x))
    (x b1 b2 : Nat) (hx : x < 16)
    (henc : toBeBytes ((c1 * 4096 + (cH * 16 + cT)) ||| (x <<< 8)) = (b1, b2)) :
    decode b1 b2 = .ok (mk x) := by
  rw [word_one_reg c1 (cH * 16 + cT) x (by omega) hx, toBeBytes_eq,
    show (c1 * 4096 + x * 256 + (cH * 16 + cT)) / 256 % 256 = c1 * 16 + x by omega,
    show (c1 * 4096 + x * 256 + (cH * 16 + cT)) % 256 = cH * 16 + cT by omega] at henc
  obtain ⟨h1, h2⟩ := Prod.mk.injEq .. ▸ henc
  subst h1 h2
  rw [decode_at_nibbles c1 x cH cT hc1 hx hH hT, hdec x _ _ hx]

theorem c1_two_reg (c1 c4 : Nat) (mk : Nat → Nat → Instruction) (hc1 : c1 < 16) (h4 : c4 < 16)
    (hdec : ∀ x y b2 w, x < 16 → y < 16 → decodeNibbles c1 x y c4 b2 w = .ok (mk x y))
    (x y b1 b2 : Nat) (hx : x < 16) (hy : y < 16)
    (henc : toBeBytes (((c1 * 4096 + c4) ||| (x <<< 8)) ||| (y <<< 4)) = (b1, b2)) :
    decode b1 b2 = .ok (mk x y) := by
  rw [word_two_reg c1 c4 x y h4 hx hy, toBeBytes_eq,
    show (c1 * 4096 + x * 256 + y * 16 + c4) / 256 % 256 = c1 * 16 + x by omega,
    show (c1 * 4096 + x * 256 + y * 16 + c4) % 256 = y * 16 + c4 by omega] at henc
  obtain ⟨h1, h2⟩ := Prod.mk.injEq .. ▸ henc
  subst h1 h2
  rw [decode_at_nibbles c1 x y c4 hc1 hx hy h4, hdec x y _ _ hx hy]

theorem c1_reg_byte (c1 : Nat) (mk : Nat → Nat → Instruction) (hc1 : c1 < 16)
    (hdec : ∀ x n3 n4 b2 w, x < 16 → decodeNibbles c1 x n3 n4 b2 w = .ok (mk x b2))
    (x b b1 b2 : Nat) (hx : x < 16) (hb : b < 256)
    (henc : toBeBytes (((c1 * 4096) ||| (x <<< 8)) ||| b) = (b1, b2)) :
    decode b1 b2 = .ok (mk x b) := by
  rw [word_reg_byte c1 x b hx hb, toBeBytes_eq,
    show (c1 * 4096 + x * 256 + b) / 256 % 256 = c1 * 16 + x by omega,
    show (c1 * 4096 + x * 256 + b) % 256 = b by omega] at henc
  obtain ⟨h1, h2⟩ := Prod.mk.injEq .. ▸ henc
  subst h1 h2
  rw [decode_eq_div_mod,
    show (c1 * 16 + x) / 16 % 16 = c1 by omega, show (c1 * 16 + x) % 16 = x by omega,
    hdec x (b / 16 % 16) (b % 16) b _ hx]

theorem c1_draw_shape (c1 : Nat) (mk : Nat → Nat → Nat → Instruction) (hc1 : c1 < 16)
    (hdec : ∀ x y n b2 w, x < 16 → y < 16 → n < 16 →
      decodeNibbles c1 x y n b2 w = .ok (mk x y n))
    (x y n b1 b2 : Nat) (hx : x < 16) (hy : y < 16) (hn : n < 16)
    (henc : toBeBytes ((((c1 * 4096) ||| (x <<< 8)) ||| (y <<< 4)) ||| n) = (b1, b2)) :
    decode b1 b2 = .ok (mk x y n) := by
  rw [word_draw c1 x y n hx hy hn, toBeBytes_eq,
    show (c1 * 4096 + x * 256 + y * 16 + n) / 256 % 256 = c1 * 16 + x by omega,
    show (c1 * 4096 + x * 256 + y * 16 + n) % 256 = y * 16 + n by omega] at henc
  obtain ⟨h1, h2⟩ := Prod.mk.injEq .. ▸ henc
  subst h1 h2
  rw [decode_at_nibbles c1 x y n hc1 hx hy hn, hdec x y n _ _ hx hy hn]

/-! ## Except monad unfolding helpers -/

theorem ebind_ok {E A B : Type} (a : A) (f : A → Except E B) :
    (Except.ok a : Except E A) >>= f = f a := rfl

theorem ebind_error {E A B : Type} (e : E) (f : A → Except E B) :
    (Except.error e : Except E A) >>= f = .error e := rfl

theorem epure_def {E A : Type} (a : A) : (pure a : Except E A) = .ok a := rfl

theorem ethrow_def {E A : Type} (e : E) : (throw e : Except E A) = .error e := rfl

theorem legacy_nibble_dispatch_equivalent (n1 n2 n3 n4 b2 w : Nat) :
    decodeNibbles n1 n2 n3 n4 b2 w =
      sharedOfLegacyResult (Legacy.decodeNibbles n1 n2 n3 n4 b2 w) := by
  unfold decodeNibbles Legacy.decodeNibbles
  by_cases h1 : n1 = 0 ∧ n2 = 0 ∧ n3 = 0xE ∧ n4 = 0
  · rw [if_pos h1, if_pos h1]; rfl
  rw [if_neg h1, if_neg h1]
  by_cases h2 : n1 = 0 ∧ n2 = 0 ∧ n3 = 0xE ∧ n4 = 0xE
  · rw [if_pos h2, if_pos h2]; rfl
  rw [if_neg h2, if_neg h2]
  by_cases h3 : n1 = 1
  · rw [if_pos h3, if_pos h3]; rfl
  rw [if_neg h3, if_neg h3]
  by_cases h4 : n1 = 2
  · rw [if_pos h4, if_pos h4]; rfl
  rw [if_neg h4, if_neg h4]
  by_cases h5 : n1 = 3
  · rw [if_pos h5, if_pos h5]; rfl
  rw [if_neg h5, if_neg h5]
  by_cases h6 : n1 = 4
  · rw [if_pos h6, if_pos h6]; rfl
  rw [if_neg h6, if_neg h6]
  by_cases h7 : n1 = 5 ∧ n4 = 0
  · rw [if_pos h7, if_pos h7]; rfl
  rw [if_neg h7, if_neg h7]
  by_cases h8 : n1 = 6
  · rw [if_pos h8, if_pos h8]; rfl
  rw [if_neg h8, if_neg h8]
  by_cases h9 : n1 = 7
  · rw [if_pos h9, if_pos h9]; rfl
  rw [if_neg h9, if_neg h9]
  by_cases h10 : n1 = 8 ∧ n4 = 0
  · rw [if_pos h10, if_pos h10]; rfl
  rw [if_neg h10, if_neg h10]
  by_cases h11 : n1 = 8 ∧ n4 = 1
  · rw [if_pos h11, if_pos h11]; rfl
  rw [if_neg h11, if_neg h11]
  by_cases h12 : n1 = 8 ∧ n4 = 2
  · rw [if_pos h12, if_pos h12]; rfl
  rw [if_neg h12, if_neg h12]
  by_cases h13 : n1 = 8 ∧ n4 = 3
  · rw [if_pos h13, if_pos h13]; rfl
  rw [if_neg h13, if_neg h13]
  by_cases h14 : n1 = 8 ∧ n4 = 4
  · rw [if_pos h14, if_pos h14]; rfl
  rw [if_neg h14, if_neg h14]
  by_cases h15 : n1 = 8 ∧ n4 = 5
  · rw [if_pos h15, if_pos h15]; rfl
  rw [if_neg h15, if_neg h15]
  by_cases h16 : n1 = 8 ∧ n4 = 6
  · rw [if_pos h16, if_pos h16]; rfl
  rw [if_neg h16, if_neg h16]
  by_cases h17 : n1 = 8 ∧ n4 = 7
  · rw [if_pos h17, if_pos h17]; rfl
  rw [if_neg h17, if_neg h17]
  by_cases h18 : n1 = 8 ∧ n4 = 0xE
  · rw [if_pos h18, if_pos h18]; rfl
  rw [if_neg h18, if_neg h18]
  by_cases h19 : n1 = 9 ∧ n4 = 0
  · rw [if_pos h19, if_pos h19]; rfl
  rw [if_neg h19, if_neg h19]
  by_cases h20 : n1 = 0xA
  · rw [if_pos h20, if_pos h20]; rfl
  rw [if_neg h20, if_neg h20]
  by_cases h21 : n1 = 0xB
  · rw [if_pos h21, if_pos h21]; rfl
  rw [if_neg h21, if_neg h21]
  by_cases h22 : n1 = 0xC
  · rw [if_pos h22, if_pos h22]; rfl
  rw [if_neg h22, if_neg h22]
  by_cases h23 : n1 = 0xD
  · rw [if_pos h23, if_pos h23]; rfl
  rw [if_neg h23, if_neg h23]
  by_cases h24 : n1 = 0xE ∧ n3 = 9 ∧ n4 = 0xE
  · rw [if_pos h24, if_pos h24]; rfl
  rw [if_neg h24, if_neg h24]
  by_cases h25 : n1 = 0xE ∧ n3 = 0xA ∧ n4 = 1
  · rw [if_pos h25, if_pos h25]; rfl
  rw [if_neg h25, if_neg h25]
  by_cases h26 : n1 = 0xF ∧ n3 = 0 ∧ n4 = 7
  · rw [if_pos h26, if_pos h26]; rfl
  rw [if_neg h26, if_neg h26]
  by_cases h27 : n1 = 0xF ∧ n3 = 0 ∧ n4 = 0xA
  · rw [if_pos h27, if_pos h27]; rfl
  rw [if_neg h27, if_neg h27]
  by_cases h28 : n1 = 0xF ∧ n3 = 1 ∧ n4 = 5
  · rw [if_pos h28, if_pos h28]; rfl
  rw [if_neg h28, if_neg h28]
  by_cases h29 : n1 = 0xF ∧ n3 = 1 ∧ n4 = 8
  · rw [if_pos h29, if_pos h29]; rfl
  rw [if_neg h29, if_neg h29]
  by_cases h30 : n1 = 0xF ∧ n3 = 1 ∧ n4 = 0xE
  · rw [if_pos h30, if_pos h30]; rfl
  rw [if_neg h30, if_neg h30]
  by_cases h31 : n1 = 0xF ∧ n3 = 2 ∧ n4 = 9
  · rw [if_pos h31, if_pos h31]; rfl
  rw [if_neg h31, if_neg h31]
  by_cases h32 : n1 = 0xF ∧ n3 = 3 ∧ n4 = 3
  · rw [if_pos h32, if_pos h32]; rfl
  rw [if_neg h32, if_neg h32]
  by_cases h33 : n1 = 0xF ∧ n3 = 5 ∧ n4 = 5
  · rw [if_pos h33, if_pos h33]; rfl
  rw [if_neg h33, if_neg h33]
  by_cases h34 : n1 = 0xF ∧ n3 = 6 ∧ n4 = 5
  · rw [if_pos h34, if_pos h34]; rfl
  rw [if_neg h34, if_neg h34]
  rfl

/-- C9: the decoder of the shared instruction crate and the decoder embedded
in the older interpreter module compute identical results on every byte pair:
the same instruction variant with the same fields on success, and an
`UnrecognisedBytecode` error carrying the same 16-bit word on failure. -/
theorem legacy_decoder_equivalent (b1 b2 : Nat) :
    decode b1 b2 = sharedOfLegacyResult (Legacy.decode b1 b2) := by
  unfold decode Legacy.decode
  exact legacy_nibble_dispatch_equivalent _ _ _ _ _ _

/-- C1: for every well-formed instruction value other than `Nop` whose
encoding succeeds (its 12-bit address fields, 4-bit register indices and
`Draw` row count are in range), decoding the two encoded bytes succeeds and
returns exactly that instruction; `Nop` itself encodes to the word `0x0000`,
and decoding `0x0000` fails with `UnrecognisedBytecode`, so `Nop` does not
round-trip. -/
theorem decode_encode_roundtrip :
    (∀ i b1 b2, i.wf → i ≠ .Nop → encode i = .ok (b1, b2) → decode b1 b2 = .ok i) ∧
    encode .Nop = .ok (0x00, 0x00) ∧
    decode 0x00 0x00 = .error (.UnrecognisedBytecode 0x0000) := by
  refine ⟨?_, by decide, by decide⟩
  intro i b1 b2 hwf hne henc
  cases i with
  | Nop => exact absurd rfl hne
  | ClearScreen =>
    have h0 : encode .ClearScreen = .ok ((0x00 : Nat), (0xE0 : Nat)) := by decide
    rw [h0] at henc
    rw [Except.ok.injEq] at henc
    obtain ⟨h3, h4⟩ := Prod.mk.injEq .. ▸ henc
    subst h3 h4
    decide
  | Return =>
    have h0 : encode .Return = .ok ((0x00 : Nat), (0xEE : Nat)) := by decide
    rw [h0] at henc
    rw [Except.ok.injEq] at henc
    obtain ⟨h3, h4⟩ := Prod.mk.injEq .. ▸ henc
    subst h3 h4
    decide
  | Jump address =>
    simp only [encode, assert_reg, assert_addr] at henc
    split_ifs at henc with hg1
    all_goals simp only [ebind_ok, ebind_error, ethrow_def, epure_def, Except.ok.injEq] at henc
    all_goals try exact Except.noConfusion henc
    have ha : address < 4096 := by
      rw [land_0xF000] at hg1
      have hw : address < 65536 := hwf
      omega
    rw [show (0x1000 : Nat) = 1 * 4096 from by norm_num] at henc
    exact c1_addr 1 Instruction.Jump (by norm_num)
      (fun m2 m3 m4 c2 ww u2 u3 u4 => by unfold decodeNibbles; norm_num) address b1 b2 ha henc
  | Call address =>
    simp only [encode, assert_reg, assert_addr] at henc
    split_ifs at henc with hg1
    all_goals simp only [ebind_ok, ebind_error, ethrow_def, epure_def, Except.ok.injEq] at henc
    all_goals try exact Except.noConfusion henc
    have ha : address < 4096 := by
      rw [land_0xF000] at hg1
      have hw : address < 65536 := hwf
      omega
    rw [show (0x2000 : Nat) = 2 * 4096 from by norm_num] at henc
    exact c1_addr 2 Instruction.Call (by norm_num)
      (fun m2 m3 m4 c2 ww u2 u3 u4 => by unfold decodeNibbles; norm_num) address b1 b2 ha henc
  | LoadMemoryRegister address =>
    simp only [encode, assert_reg, assert_addr] at henc
    split_ifs at henc with hg1
    all_goals simp only [ebind_ok, ebind_error, ethrow_def, epure_def, Except.ok.injEq] at henc
    all_goals try exact Except.noConfusion henc
    have ha : address < 4096 := by
      rw [land_0xF000] at hg1
      have hw : address < 65536 := hwf
      omega
    rw [show (0xA000 : Nat) = 10 * 4096 from by norm_num] at henc
    exact c1_addr 10 Instruction.LoadMemoryRegister (by norm_num)
      (fun m2 m3 m4 c2 ww u2 u3 u4 => by unfold decodeNibbles; norm_num) address b1 b2 ha henc
  | JumpPlusV0 address =>
    simp only [encode, assert_reg, assert_addr] at henc
    split_ifs at henc with hg1
    all_goals simp only [ebind_ok, ebind_error, ethrow_def, epure_def, Except.ok.injEq] at henc
    all_goals try exact Except.noConfusion henc
    have ha : address < 4096 := by
      rw [land_0xF000] at hg1
      have hw : address < 65536 := hwf
      omega
    rw [show (0xB000 : Nat) = 11 * 4096 from by norm_num] at henc
    exact c1_addr 11 Instruction.JumpPlusV0 (by norm_num)
      (fun m2 m3 m4 c2 ww u2 u3 u4 => by unfold decodeNibbles; norm_num) address b1 b2 ha henc
  | SkipIfEqual x op =>
    cases op with
    | Register y =>
      simp only [encode, assert_reg, assert_addr] at henc
      split_ifs at henc with hg1
      all_goals simp only [ebind_ok, ebind_error, ethrow_def, epure_def, Except.ok.injEq] at henc
      all_goals try exact Except.noConfusion henc
      rw [show (0x5000 : Nat) = 5 * 4096 + 0 from by norm_num] at henc
      exact c1_two_reg 5 0 (fun a b => Instruction.SkipIfEqual a (Operand.Register b)) (by norm_num) (by norm_num)
        (fun a' b' c2 ww ha' hb' => by unfold decodeNibbles; norm_num) x y b1 b2
        (by omega) (by omega) henc
    | Literal byte =>
      simp only [encode, assert_reg, assert_addr] at henc
      split_ifs at henc with hg1
      all_goals simp only [ebind_ok, ebind_error, ethrow_def, epure_def, Except.ok.injEq] at henc
      all_goals try exact Except.noConfusion henc
      rw [show (0x3000 : Nat) = 3 * 4096 from by norm_num] at henc
      exact c1_reg_byte 3 (fun a b => Instruction.SkipIfEqual a (Operand.Literal b)) (by norm_num)
        (fun a' m3 m4 c2 ww ha' => by unfold decodeNibbles; norm_num) x byte b1 b2
        (by omega) hwf.2 henc
  | SkipIfNotEqual x op =>
    cases op with
    | Register y =>
      simp only [encode, assert_reg, assert_addr] at henc
      split_ifs at henc with hg1
      all_goals simp only [ebind_ok, ebind_error, ethrow_def, epure_def, Except.ok.injEq] at henc
      all_goals try exact Except.noConfusion henc
      rw [show (0x9000 : Nat) = 9 * 4096 + 0 from by norm_num] at henc
      exact c1_two_reg 9 0 (fun a b => Instruction.SkipIfNotEqual a (Operand.Register b)) (by norm_num) (by norm_num)
        (fun a' b' c2 ww ha' hb' => by unfold decodeNibbles; norm_num) x y b1 b2
        (by omega) (by omega) henc
    | Literal byte =>
      simp only [encode, assert_reg, assert_addr] at henc
      split_ifs at henc with hg1
      all_goals simp only [ebind_ok, ebind_error, ethrow_def, epure_def, Except.ok.injEq] at henc
      all_goals try exact Except.noConfusion henc
      rw [show (0x4000 : Nat) = 4 * 4096 from by norm_num] at henc
      exact c1_reg_byte 4 (fun a b => Instruction.SkipIfNotEqual a (Operand.Literal b)) (by norm_num)
        (fun a' m3 m4 c2 ww ha' => by unfold decodeNibbles; norm_num) x byte b1 b2
        (by omega) hwf.2 henc
  | LoadRegister x op =>
    cases op with
    | Register y =>
      simp only [encode, assert_reg, assert_addr] at henc
      split_ifs at henc with hg1
      all_goals simp only [ebind_ok, ebind_error, ethrow_def, epure_def, Except.ok.injEq] at henc
      all_goals try exact Except.noConfusion henc
      rw [show (0x8000 : Nat) = 8 * 4096 + 0 from by norm_num] at henc
      exact c1_two_reg 8 0 (fun a b => Instruction.LoadRegister a (Operand.Register b)) (by norm_num) (by norm_num)
        (fun a' b' c2 ww ha' hb' => by unfold decodeNibbles; norm_num) x y b1 b2
        (by omega) (by omega) henc
    | Literal byte =>
      simp only [encode, assert_reg, assert_addr] at henc
      split_ifs at henc with hg1
      all_goals simp only [ebind_ok, ebind_error, ethrow_def, epure_def, Except.ok.injEq] at henc
      all_goals try exact Except.noConfusion henc
      rw [show (0x6000 : Nat) = 6 * 4096 from by norm_num] at henc
      exact c1_reg_byte 6 (fun a b => Instruction.LoadRegister a (Operand.Literal b)) (by norm_num)
        (fun a' m3 m4 c2 ww ha' => by unfold decodeNibbles; norm_num) x byte b1 b2
        (by omega) hwf.2 henc
  | AddNoCarry x byte =>
    simp only [encode, assert_reg, assert_addr] at henc
    split_ifs at henc with hg1
    all_goals simp only [ebind_ok, ebind_error, ethrow_def, epure_def, Except.ok.injEq] at henc
    all_goals try exact Except.noConfusion henc
    rw [show (0x7000 : Nat) = 7 * 4096 from by norm_num] at henc
    exact c1_reg_byte 7 (Instruction.AddNoCarry) (by norm_num)
      (fun a' m3 m4 c2 ww ha' => by unfold decodeNibbles; norm_num) x byte b1 b2
      (by omega) hwf.2 henc
  | LoadRandomWithMask x byte =>
    simp only [encode, assert_reg, assert_addr] at henc
    split_ifs at henc with hg1
    all_goals simp only [ebind_ok, ebind_error, ethrow_def, epure_def, Except.ok.injEq] at henc
    all_goals try exact Except.noConfusion henc
    rw [show (0xC000 : Nat) = 12 * 4096 from by norm_num] at henc
    exact c1_reg_byte 12 (Instruction.LoadRandomWithMask) (by norm_num)
      (fun a' m3 m4 c2 ww ha' => by unfold decodeNibbles; norm_num) x byte b1 b2
      (by omega) hwf.2 henc
  | Or x y =>
    simp only [encode, assert_reg, assert_addr] at henc
    split_ifs at henc with hg1
    all_goals simp only [ebind_ok, ebind_error, ethrow_def, epure_def, Except.ok.injEq] at henc
    all_goals try exact Except.noConfusion henc
    rw [show (0x8001 : Nat) = 8 * 4096 + 1 from by norm_num] at henc
    exact c1_two_reg 8 1 (Instruction.Or) (by norm_num) (by norm_num)
      (fun a' b' c2 ww ha' hb' => by unfold decodeNibbles; norm_num) x y b1 b2
      (by omega) (by omega) henc
  | And x y =>
    simp only [encode, assert_reg, assert_addr] at henc
    split_ifs at henc with hg1
    all_goals simp only [ebind_ok, ebind_error, ethrow_def, epure_def, Except.ok.injEq] at henc
    all_goals try exact Except.noConfusion henc
    rw [show (0x8002 : Nat) = 8 * 4096 + 2 from by norm_num] at henc
    exact c1_two_reg 8 2 (Instruction.And) (by norm_num) (by norm_num)
      (fun a' b' c2 ww ha' hb' => by unfold decodeNibbles; norm_num) x y b1 b2
      (by omega) (by omega) henc
  | Xor x y =>
    simp only [encode, assert_reg, assert_addr] at henc
    split_ifs at henc with hg1
    all_goals simp only [ebind_ok, ebind_error, ethrow_def, epure_def, Except.ok.injEq] at henc
    all_goals try exact Except.noConfusion henc
    rw [show (0x8003 : Nat) = 8 * 4096 + 3 from by norm_num] at henc
    exact c1_two_reg 8 3 (Instruction.Xor) (by norm_num) (by norm_num)
      (fun a' b' c2 ww ha' hb' => by unfold decodeNibbles; norm_num) x y b1 b2
      (by omega) (by omega) henc
  | AddWithCarry x y =>
    simp only [encode, assert_reg, assert_addr] at henc
    split_ifs at henc with hg1
    all_goals simp only [ebind_ok, ebind_error, ethrow_def, epure_def, Except.ok.injEq] at henc
    all_goals try exact Except.noConfusion henc
    rw [show (0x8004 : Nat) = 8 * 4096 + 4 from by norm_num] at henc
    exact c1_two_reg 8 4 (Instruction.AddWithCarry) (by norm_num) (by norm_num)
      (fun a' b' c2 ww ha' hb' => by unfold decodeNibbles; norm_num) x y b1 b2
      (by omega) (by omega) henc
  | Sub x y =>
    simp only [encode, assert_reg, assert_addr] at henc
    split_ifs at henc with hg1
    all_goals simp only [ebind_ok, ebind_error, ethrow_def, epure_def, Except.ok.injEq] at henc
    all_goals try exact Except.noConfusion henc
    rw [show (0x8005 : Nat) = 8 * 4096 + 5 from by norm_num] at henc
    exact c1_two_reg 8 5 (Instruction.Sub) (by norm_num) (by norm_num)
      (fun a' b' c2 ww ha' hb' => by unfold decodeNibbles; norm_num) x y b1 b2
      (by omega) (by omega) henc
  | SubN x y =>
    simp only [encode, assert_reg, assert_addr] at henc
    split_ifs at henc with hg1
    all_goals simp only [ebind_ok, ebind_error, ethrow_def, epure_def, Except.ok.injEq] at henc
    all_goals try exact Except.noConfusion henc
    rw [show (0x8007 : Nat) = 8 * 4096 + 7 from by norm_num] at henc
    exact c1_two_reg 8 7 (Instruction.SubN) (by norm_num) (by norm_num)
      (fun a' b' c2 ww ha' hb' => by unfold decodeNibbles; norm_num) x y b1 b2
      (by omega) (by omega) henc
  | ShiftRight x =>
    simp only [encode, assert_reg, assert_addr] at henc
    split_ifs at henc with hg1
    all_goals simp only [ebind_ok, ebind_error, ethrow_def, epure_def, Except.ok.injEq] at henc
    all_goals try exact Except.noConfusion henc
    rw [show (0x8006 : Nat) = 8 * 4096 + (0 * 16 + 6) from by norm_num] at henc
    exact c1_one_reg 8 0 6 Instruction.ShiftRight (by norm_num) (by norm_num) (by norm_num)
      (fun a' c2 ww ha' => by unfold decodeNibbles; norm_num) x b1 b2 (by omega) henc
  | ShiftLeft x =>
    simp only [encode, assert_reg, assert_addr] at henc
    split_ifs at henc with hg1
    all_goals simp only [ebind_ok, ebind_error, ethrow_def, epure_def, Except.ok.injEq] at henc
    all_goals try exact Except.noConfusion henc
    rw [show (0x800E : Nat) = 8 * 4096 + (0 * 16 + 14) from by norm_num] at henc
    exact c1_one_reg 8 0 14 Instruction.ShiftLeft (by norm_num) (by norm_num) (by norm_num)
      (fun a' c2 ww ha' => by unfold decodeNibbles; norm_num) x b1 b2 (by omega) henc
  | SkipIfKeyPressed x =>
    simp only [encode, assert_reg, assert_addr] at henc
    split_ifs at henc with hg1
    all_goals simp only [ebind_ok, ebind_error, ethrow_def, epure_def, Except.ok.injEq] at henc
    all_goals try exact Except.noConfusion henc
    rw [show (0xE09E : Nat) = 14 * 4096 + (9 * 16 + 14) from by norm_num] at henc
    exact c1_one_reg 14 9 14 Instruction.SkipIfKeyPressed (by norm_num) (by norm_num) (by norm_num)
      (fun a' c2 ww ha' => by unfold decodeNibbles; norm_num) x b1 b2 (by omega) henc
  | SkipIfKeyNotPressed x =>
    simp only [encode, assert_reg, assert_addr] at henc
    split_ifs at henc with hg1
    all_goals simp only [ebind_ok, ebind_error, ethrow_def, epure_def, Except.ok.injEq] at henc
    all_goals try exact Except.noConfusion henc
    rw [show (0xE0A1 : Nat) = 14 * 4096 + (10 * 16 + 1) from by norm_num] at henc
    exact c1_one_reg 14 10 1 Instruction.SkipIfKeyNotPressed (by norm_num) (by norm_num) (by norm_num)
      (fun a' c2 ww ha' => by unfold decodeNibbles; norm_num) x b1 b2 (by omega) henc
  | LoadFromDelayTimer x =>
    simp only [encode, assert_reg, assert_addr] at henc
    split_ifs at henc with hg1
    all_goals simp only [ebind_ok, ebind_error, ethrow_def, epure_def, Except.ok.injEq] at henc
    all_goals try exact Except.noConfusion henc
    rw [show (0xF007 : Nat) = 15 * 4096 + (0 * 16 + 7) from by norm_num] at henc
    exact c1_one_reg 15 0 7 Instruction.LoadFromDelayTimer (by norm_num) (by norm_num) (by norm_num)
      (fun a' c2 ww ha' => by unfold decodeNibbles; norm_num) x b1 b2 (by omega) henc
  | WaitForKeyPress x =>
    simp only [encode, assert_reg, assert_addr] at henc
    split_ifs at henc with hg1
    all_goals simp only [ebind_ok, ebind_error, ethrow_def, epure_def, Except.ok.injEq] at henc
    all_goals try exact Except.noConfusion henc
    rw [show (0xF00A : Nat) = 15 * 4096 + (0 * 16 + 10) from by norm_num] at henc
    exact c1_one_reg 15 0 10 Instruction.WaitForKeyPress (by norm_num) (by norm_num) (by norm_num)
      (fun a' c2 ww ha' => by unfold decodeNibbles; norm_num) x b1 b2 (by omega) henc
  | LoadIntoDelayTimer x =>
    simp only [encode, assert_reg, assert_addr] at henc
    split_ifs at henc with hg1
    all_goals simp only [ebind_ok, ebind_error, ethrow_def, epure_def, Except.ok.injEq] at henc
    all_goals try exact Except.noConfusion henc
    rw [show (0xF015 : Nat) = 15 * 4096 + (1 * 16 + 5) from by norm_num] at henc
    exact c1_one_reg 15 1 5 Instruction.LoadIntoDelayTimer (by norm_num) (by norm_num) (by norm_num)
      (fun a' c2 ww ha' => by unfold decodeNibbles; norm_num) x b1 b2 (by omega) henc
  | LoadIntoSoundTimer x =>
    simp only [encode, assert_reg, assert_addr] at henc
    split_ifs at henc with hg1
    all_goals simp only [ebind_ok, ebind_error, ethrow_def, epure_def, Except.ok.injEq] at henc
    all_goals try exact Except.noConfusion henc
    rw [show (0xF018 : Nat) = 15 * 4096 + (1 * 16 + 8) from by norm_num] at henc
    exact c1_one_reg 15 1 8 Instruction.LoadIntoSoundTimer (by norm_num) (by norm_num) (by norm_num)
      (fun a' c2 ww ha' => by unfold decodeNibbles; norm_num) x b1 b2 (by omega) henc
  | AddToMemoryRegister x =>
    simp only [encode, assert_reg, assert_addr] at henc
    split_ifs at henc with hg1
    all_goals simp only [ebind_ok, ebind_error, ethrow_def, epure_def, Except.ok.injEq] at henc
    all_goals try exact Except.noConfusion henc
    rw [show (0xF01E : Nat) = 15 * 4096 + (1 * 16 + 14) from by norm_num] at henc
    exact c1_one_reg 15 1 14 Instruction.AddToMemoryRegister (by norm_num) (by norm_num) (by norm_num)
      (fun a' c2 ww ha' => by unfold decodeNibbles; norm_num) x b1 b2 (by omega) henc
  | LoadDigitAddress x =>
    simp only [encode, assert_reg, assert_addr] at henc
    split_ifs at henc with hg1
    all_goals simp only [ebind_ok, ebind_error, ethrow_def, epure_def, Except.ok.injEq] at henc
    all_goals try exact Except.noConfusion henc
    rw [show (0xF029 : Nat) = 15 * 4096 + (2 * 16 + 9) from by norm_num] at henc
    exact c1_one_reg 15 2 9 Instruction.LoadDigitAddress (by norm_num) (by norm_num) (by norm_num)
      (fun a' c2 ww ha' => by unfold decodeNibbles; norm_num) x b1 b2 (by omega) henc
  | StoreBcdInMemory x =>
    simp only [encode, assert_reg, assert_addr] at henc
    split_ifs at henc with hg1
    all_goals simp only [ebind_ok, ebind_error, ethrow_def, epure_def, Except.ok.injEq] at henc
    all_goals try exact Except.noConfusion henc
    rw [show (0xF033 : Nat) = 15 * 4096 + (3 * 16 + 3) from by norm_num] at henc
    exact c1_one_reg 15 3 3 Instruction.StoreBcdInMemory (by norm_num) (by norm_num) (by norm_num)
      (fun a' c2 ww ha' => by unfold decodeNibbles; norm_num) x b1 b2 (by omega) henc
  | StoreRegistersInMemory x =>
    simp only [encode, assert_reg, assert_addr] at henc
    split_ifs at henc with hg1
    all_goals simp only [ebind_ok, ebind_error, ethrow_def, epure_def, Except.ok.injEq] at henc
    all_goals try exact Except.noConfusion henc
    rw [show (0xF055 : Nat) = 15 * 4096 + (5 * 16 + 5) from by norm_num] at henc
    exact c1_one_reg 15 5 5 Instruction.StoreRegistersInMemory (by norm_num) (by norm_num) (by norm_num)
      (fun a' c2 ww ha' => by unfold decodeNibbles; norm_num) x b1 b2 (by omega) henc
  | ReadRegistersFromMemory x =>
    simp only [encode, assert_reg, assert_addr] at henc
    split_ifs at henc with hg1
    all_goals simp only [ebind_ok, ebind_error, ethrow_def, epure_def, Except.ok.injEq] at henc
    all_goals try exact Except.noConfusion henc
    rw [show (0xF065 : Nat) = 15 * 4096 + (6 * 16 + 5) from by norm_num] at henc
    exact c1_one_reg 15 6 5 Instruction.ReadRegistersFromMemory (by norm_num) (by norm_num) (by norm_num)
      (fun a' c2 ww ha' => by unfold decodeNibbles; norm_num) x b1 b2 (by omega) henc
  | Draw x y n =>
    simp only [encode, assert_reg, assert_addr] at henc
    split_ifs at henc with hg1
    all_goals simp only [ebind_ok, ebind_error, ethrow_def, epure_def, Except.ok.injEq] at henc
    all_goals try exact Except.noConfusion henc
    rw [show (0xD000 : Nat) = 13 * 4096 from by norm_num] at henc
    exact c1_draw_shape 13 Instruction.Draw (by norm_num)
      (fun a' b' n' c2 ww ha' hb' hn' => by unfold decodeNibbles; norm_num) x y n b1 b2
      (by omega) (by omega) (by omega) henc

/-- C1 witness: the round-trip theorem applied to the concrete instruction
`Jump 0x210`. -/
theorem decode_encode_roundtrip_witness :
    decode 0x12 0x10 = .ok (.Jump 0x210) :=
  decode_encode_roundtrip.1 (.Jump 0x210) 0x12 0x10 (by decide) (by decide) (by decide)

/-- C2 counterexample: the word `0x8116` decodes successfully to
`ShiftRight 1`, but re-encoding gives the canonical word `0x8106`, not
`0x8116` — `encode` is not a left inverse of `decode` on all
successfully-decodable words. -/
theorem encode_decode_counterexample :
    decode 0x81 0x16 = .ok (.ShiftRight 1) ∧
    encode (.ShiftRight 1) = .ok (0x81, 0x06) ∧
    encode (.ShiftRight 1) ≠ .ok (0x81, 0x16) := by
  refine ⟨by decide, by decide, by decide⟩

/-- C2 amended: for every byte pair that decodes successfully, re-encoding
the decoded instruction succeeds and reproduces exactly the input bytes,
except for the two shift opcodes (`8xy6`, `8xyE`), whose ignored `y` nibble
is cleared: there re-encoding returns the low byte with the high nibble
zeroed.  In particular decoding rejects everything outside the recognised
opcode space, and the encoder never produces a word whose decode differs. -/
theorem encode_decode_amended :
    ∀ b1 b2 i, b1 < 256 → b2 < 256 → decode b1 b2 = .ok i →
      encode i = .ok (b1, b2) ∨
      ((∃ x, i = .ShiftRight x ∨ i = .ShiftLeft x) ∧
        encode i = .ok (b1, b2 &&& 0x0F)) := by
  intro b1 b2 i hb1 hb2 h
  rw [decode_eq_div_mod] at h
  unfold decodeNibbles at h
  by_cases hk1 : b1 / 16 % 16 = 0 ∧ b1 % 16 = 0 ∧ b2 / 16 % 16 = 0xE ∧ b2 % 16 = 0
  · rw [if_pos hk1, Except.ok.injEq] at h
    subst h
    obtain ⟨rfl, rfl⟩ : b1 = 0 ∧ b2 = 0xE0 := by omega
    exact Or.inl (by decide)
  rw [if_neg hk1] at h
  by_cases hk2 : b1 / 16 % 16 = 0 ∧ b1 % 16 = 0 ∧ b2 / 16 % 16 = 0xE ∧ b2 % 16 = 0xE
  · rw [if_pos hk2, Except.ok.injEq] at h
    subst h
    obtain ⟨rfl, rfl⟩ : b1 = 0 ∧ b2 = 0xEE := by omega
    exact Or.inl (by decide)
  rw [if_neg hk2] at h
  by_cases hk3 : b1 / 16 % 16 = 1
  · rw [if_pos hk3, Except.ok.injEq] at h
    subst h
    left
    simp only [shl_eq, pow2_8, pow2_4, encode, assert_addr]
    rw [if_pos (show (b1 % 16 * 256 + b2 / 16 % 16 * 16 + b2 % 16) &&& 0xF000 = 0 from by
      rw [land_0xF000]; omega)]
    simp only [ebind_ok, epure_def]
    rw [show (0x1000 : Nat) = 1 * 4096 from by norm_num, word_addr 1 _ (by omega),
      toBeBytes_eq, Except.ok.injEq, Prod.mk.injEq]
    exact ⟨by omega, by omega⟩
  rw [if_neg hk3] at h
  by_cases hk4 : b1 / 16 % 16 = 2
  · rw [if_pos hk4, Except.ok.injEq] at h
    subst h
    left
    simp only [shl_eq, pow2_8, pow2_4, encode, assert_addr]
    rw [if_pos (show (b1 % 16 * 256 + b2 / 16 % 16 * 16 + b2 % 16) &&& 0xF000 = 0 from by
      rw [land_0xF000]; omega)]
    simp only [ebind_ok, epure_def]
    rw [show (0x2000 : Nat) = 2 * 4096 from by norm_num, word_addr 2 _ (by omega),
      toBeBytes_eq, Except.ok.injEq, Prod.mk.injEq]
    exact ⟨by omega, by omega⟩
  rw [if_neg hk4] at h
  by_cases hk5 : b1 / 16 % 16 = 3
  · rw [if_pos hk5, Except.ok.injEq] at h
    subst h
    left
    simp only [encode, assert_reg]
    rw [if_neg (show ¬ b1 % 16 > 15 from by omega)]
    simp only [ebind_ok, epure_def]
    rw [show (0x3000 : Nat) = 3 * 4096 from by norm_num,
      word_reg_byte 3 _ _ (by omega) hb2, toBeBytes_eq, Except.ok.injEq, Prod.mk.injEq]
    exact ⟨by omega, by omega⟩
  rw [if_neg hk5] at h
  by_cases hk6 : b1 / 16 % 16 = 4
  · rw [if_pos hk6, Except.ok.injEq] at h
    subst h
    left
    simp only [encode, assert_reg]
    rw [if_neg (show ¬ b1 % 16 > 15 from by omega)]
    simp only [ebind_ok, epure_def]
    rw [show (0x4000 : Nat) = 4 * 4096 from by norm_num,
      word_reg_byte 4 _ _ (by omega) hb2, toBeBytes_eq, Except.ok.injEq, Prod.mk.injEq]
    exact ⟨by omega, by omega⟩
  rw [if_neg hk6] at h
  by_cases hk7 : b1 / 16 % 16 = 5 ∧ b2 % 16 = 0
  · rw [if_pos hk7, Except.ok.injEq] at h
    subst h
    left
    simp only [encode, assert_reg]
    rw [if_neg (show ¬ b1 % 16 > 15 from by omega), if_neg (show ¬ b2 / 16 % 16 > 15 from by omega)]
    simp only [ebind_ok, epure_def]
    rw [show (0x5000 : Nat) = 5 * 4096 + 0 from by norm_num,
      word_two_reg 5 0 _ _ (by norm_num) (by omega) (by omega), toBeBytes_eq,
      Except.ok.injEq, Prod.mk.injEq]
    exact ⟨by omega, by omega⟩
  rw [if_neg hk7] at h
  by_cases hk8 : b1 / 16 % 16 = 6
  · rw [if_pos hk8, Except.ok.injEq] at h
    subst h
    left
    simp only [encode, assert_reg]
    rw [if_neg (show ¬ b1 % 16 > 15 from by omega)]
    simp only [ebind_ok, epure_def]
    rw [show (0x6000 : Nat) = 6 * 4096 from by norm_num,
      word_reg_byte 6 _ _ (by omega) hb2, toBeBytes_eq, Except.ok.injEq, Prod.mk.injEq]
    exact ⟨by omega, by omega⟩
  rw [if_neg hk8] at h
  by_cases hk9 : b1 / 16 % 16 = 7
  · rw [if_pos hk9, Except.ok.injEq] at h
    subst h
    left
    simp only [encode, assert_reg]
    rw [if_neg (show ¬ b1 % 16 > 15 from by omega)]
    simp only [ebind_ok, epure_def]
    rw [show (0x7000 : Nat) = 7 * 4096 from by norm_num,
      word_reg_byte 7 _ _ (by omega) hb2, toBeBytes_eq, Except.ok.injEq, Prod.mk.injEq]
    exact ⟨by omega, by omega⟩
  rw [if_neg hk9] at h
  by_cases hk10 : b1 / 16 % 16 = 8 ∧ b2 % 16 = 0
  · rw [if_pos hk10, Except.ok.injEq] at h
    subst h
    left
    simp only [encode, assert_reg]
    rw [if_neg (show ¬ b1 % 16 > 15 from by omega), if_neg (show ¬ b2 / 16 % 16 > 15 from by omega)]
    simp only [ebind_ok, epure_def]
    rw [show (0x8000 : Nat) = 8 * 4096 + 0 from by norm_num,
      word_two_reg 8 0 _ _ (by norm_num) (by omega) (by omega), toBeBytes_eq,
      Except.ok.injEq, Prod.mk.injEq]
    exact ⟨by omega, by omega⟩
  rw [if_neg hk10] at h
  by_cases hk11 : b1 / 16 % 16 = 8 ∧ b2 % 16 = 1
  · rw [if_pos hk11, Except.ok.injEq] at h
    subst h
    left
    simp only [encode, assert_reg]
    rw [if_neg (show ¬ b1 % 16 > 15 from by omega), if_neg (show ¬ b2 / 16 % 16 > 15 from by omega)]
    simp only [ebind_ok, epure_def]
    rw [show (0x8001 : Nat) = 8 * 4096 + 1 from by norm_num,
      word_two_reg 8 1 _ _ (by norm_num) (by omega) (by omega), toBeBytes_eq,
      Except.ok.injEq, Prod.mk.injEq]
    exact ⟨by omega, by omega⟩
  rw [if_neg hk11] at h
  by_cases hk12 : b1 / 16 % 16 = 8 ∧ b2 % 16 = 2
  · rw [if_pos hk12, Except.ok.injEq] at h
    subst h
    left
    simp only [encode, assert_reg]
    rw [if_neg (show ¬ b1 % 16 > 15 from by omega), if_neg (show ¬ b2 / 16 % 16 > 15 from by omega)]
    simp only [ebind_ok, epure_def]
    rw [show (0x8002 : Nat) = 8 * 4096 + 2 from by norm_num,
      word_two_reg 8 2 _ _ (by norm_num) (by omega) (by omega), toBeBytes_eq,
      Except.ok.injEq, Prod.mk.injEq]
    exact ⟨by omega, by omega⟩
  rw [if_neg hk12] at h
  by_cases hk13 : b1 / 16 % 16 = 8 ∧ b2 % 16 = 3
  · rw [if_pos hk13, Except.ok.injEq] at h
    subst h
    left
    simp only [encode, assert_reg]
    rw [if_neg (show ¬ b1 % 16 > 15 from by omega), if_neg (show ¬ b2 / 16 % 16 > 15 from by omega)]
    simp only [ebind_ok, epure_def]
    rw [show (0x8003 : Nat) = 8 * 4096 + 3 from by norm_num,
      word_two_reg 8 3 _ _ (by norm_num) (by omega) (by omega), toBeBytes_eq,
      Except.ok.injEq, Prod.mk.injEq]
    exact ⟨by omega, by omega⟩
  rw [if_neg hk13] at h
  by_cases hk14 : b1 / 16 % 16 = 8 ∧ b2 % 16 = 4
  · rw [if_pos hk14, Except.ok.injEq] at h
    subst h
    left
    simp only [encode, assert_reg]
    rw [if_neg (show ¬ b1 % 16 > 15 from by omega), if_neg (show ¬ b2 / 16 % 16 > 15 from by omega)]
    simp only [ebind_ok, epure_def]
    rw [show (0x8004 : Nat) = 8 * 4096 + 4 from by norm_num,
      word_two_reg 8 4 _ _ (by norm_num) (by omega) (by omega), toBeBytes_eq,
      Except.ok.injEq, Prod.mk.injEq]
    exact ⟨by omega, by omega⟩
  rw [if_neg hk14] at h
  by_cases hk15 : b1 / 16 % 16 = 8 ∧ b2 % 16 = 5
  · rw [if_pos hk15, Except.ok.injEq] at h
    subst h
    left
    simp only [encode, assert_reg]
    rw [if_neg (show ¬ b1 % 16 > 15 from by omega), if_neg (show ¬ b2 / 16 % 16 > 15 from by omega)]
    simp only [ebind_ok, epure_def]
    rw [show (0x8005 : Nat) = 8 * 4096 + 5 from by norm_num,
      word_two_reg 8 5 _ _ (by norm_num) (by omega) (by omega), toBeBytes_eq,
      Except.ok.injEq, Prod.mk.injEq]
    exact ⟨by omega, by omega⟩
  rw [if_neg hk15] at h
  by_cases hk16 : b1 / 16 % 16 = 8 ∧ b2 % 16 = 6
  · rw [if_pos hk16, Except.ok.injEq] at h
    subst h
    refine Or.inr ⟨⟨b1 % 16, Or.inl rfl⟩, ?_⟩
    simp only [encode, assert_reg]
    rw [if_neg (show ¬ b1 % 16 > 15 from by omega)]
    simp only [ebind_ok, epure_def]
    rw [show (0x8006 : Nat) = 8 * 4096 + 6 from by norm_num,
      word_one_reg 8 6 _ (by norm_num) (by omega), toBeBytes_eq, nib_lo,
      Except.ok.injEq, Prod.mk.injEq]
    exact ⟨by omega, by omega⟩
  rw [if_neg hk16] at h
  by_cases hk17 : b1 / 16 % 16 = 8 ∧ b2 % 16 = 7
  · rw [if_pos hk17, Except.ok.injEq] at h
    subst h
    left
    simp only [encode, assert_reg]
    rw [if_neg (show ¬ b1 % 16 > 15 from by omega), if_neg (show ¬ b2 / 16 % 16 > 15 from by omega)]
    simp only [ebind_ok, epure_def]
    rw [show (0x8007 : Nat) = 8 * 4096 + 7 from by norm_num,
      word_two_reg 8 7 _ _ (by norm_num) (by omega) (by omega), toBeBytes_eq,
      Except.ok.injEq, Prod.mk.injEq]
    exact ⟨by omega, by omega⟩
  rw [if_neg hk17] at h
  by_cases hk18 : b1 / 16 % 16 = 8 ∧ b2 % 16 = 0xE
  · rw [if_pos hk18, Except.ok.injEq] at h
    subst h
    refine Or.inr ⟨⟨b1 % 16, Or.inr rfl⟩, ?_⟩
    simp only [encode, assert_reg]
    rw [if_neg (show ¬ b1 % 16 > 15 from by omega)]
    simp only [ebind_ok, epure_def]
    rw [show (0x800E : Nat) = 8 * 4096 + 14 from by norm_num,
      word_one_reg 8 14 _ (by norm_num) (by omega), toBeBytes_eq, nib_lo,
      Except.ok.injEq, Prod.mk.injEq]
    exact ⟨by omega, by omega⟩
  rw [if_neg hk18] at h
  by_cases hk19 : b1 / 16 % 16 = 9 ∧ b2 % 16 = 0
  · rw [if_pos hk19, Except.ok.injEq] at h
    subst h
    left
    simp only [encode, assert_reg]
    rw [if_neg (show ¬ b1 % 16 > 15 from by omega), if_neg (show ¬ b2 / 16 % 16 > 15 from by omega)]
    simp only [ebind_ok, epure_def]
    rw [show (0x9000 : Nat) = 9 * 4096 + 0 from by norm_num,
      word_two_reg 9 0 _ _ (by norm_num) (by omega) (by omega), toBeBytes_eq,
      Except.ok.injEq, Prod.mk.injEq]
    exact ⟨by omega, by omega⟩
  rw [if_neg hk19] at h
  by_cases hk20 : b1 / 16 % 16 = 0xA
  · rw [if_pos hk20, Except.ok.injEq] at h
    subst h
    left
    simp only [shl_eq, pow2_8, pow2_4, encode, assert_addr]
    rw [if_pos (show (b1 % 16 * 256 + b2 / 16 % 16 * 16 + b2 % 16) &&& 0xF000 = 0 from by
      rw [land_0xF000]; omega)]
    simp only [ebind_ok, epure_def]
    rw [show (0xA000 : Nat) = 10 * 4096 from by norm_num, word_addr 10 _ (by omega),
      toBeBytes_eq, Except.ok.injEq, Prod.mk.injEq]
    exact ⟨by omega, by omega⟩
  rw [if_neg hk20] at h
  by_cases hk21 : b1 / 16 % 16 = 0xB
  · rw [if_pos hk21, Except.ok.injEq] at h
    subst h
    left
    simp only [shl_eq, pow2_8, pow2_4, encode, assert_addr]
    rw [if_pos (show (b1 % 16 * 256 + b2 / 16 % 16 * 16 + b2 % 16) &&& 0xF000 = 0 from by
      rw [land_0xF000]; omega)]
    simp only [ebind_ok, epure_def]
    rw [show (0xB000 : Nat) = 11 * 4096 from by norm_num, word_addr 11 _ (by omega),
      toBeBytes_eq, Except.ok.injEq, Prod.mk.injEq]
    exact ⟨by omega, by omega⟩
  rw [if_neg hk21] at h
  by_cases hk22 : b1 / 16 % 16 = 0xC
  · rw [if_pos hk22, Except.ok.injEq] at h
    subst h
    left
    simp only [encode, assert_reg]
    rw [if_neg (show ¬ b1 % 16 > 15 from by omega)]
    simp only [ebind_ok, epure_def]
    rw [show (0xC000 : Nat) = 12 * 4096 from by norm_num,
      word_reg_byte 12 _ _ (by omega) hb2, toBeBytes_eq, Except.ok.injEq, Prod.mk.injEq]
    exact ⟨by omega, by omega⟩
  rw [if_neg hk22] at h
  by_cases hk23 : b1 / 16 % 16 = 0xD
  · rw [if_pos hk23, Except.ok.injEq] at h
    subst h
    left
    simp only [encode, assert_reg]
    rw [if_neg (show ¬ b1 % 16 > 15 from by omega), if_neg (show ¬ b2 / 16 % 16 > 15 from by omega),
      if_neg (show ¬ b2 % 16 > 15 from by omega)]
    simp only [ebind_ok, epure_def]
    rw [show (0xD000 : Nat) = 13 * 4096 from by norm_num,
      word_draw 13 _ _ _ (by omega) (by omega) (by omega), toBeBytes_eq,
      Except.ok.injEq, Prod.mk.injEq]
    exact ⟨by omega, by omega⟩
  rw [if_neg hk23] at h
  by_cases hk24 : b1 / 16 % 16 = 0xE ∧ b2 / 16 % 16 = 9 ∧ b2 % 16 = 0xE
  · rw [if_pos hk24, Except.ok.injEq] at h
    subst h
    left
    simp only [encode, assert_reg]
    rw [if_neg (show ¬ b1 % 16 > 15 from by omega)]
    simp only [ebind_ok, epure_def]
    rw [show (0xE09E : Nat) = 14 * 4096 + 158 from by norm_num,
      word_one_reg 14 158 _ (by norm_num) (by omega), toBeBytes_eq,
      Except.ok.injEq, Prod.mk.injEq]
    exact ⟨by omega, by omega⟩
  rw [if_neg hk24] at h
  by_cases hk25 : b1 / 16 % 16 = 0xE ∧ b2 / 16 % 16 = 0xA ∧ b2 % 16 = 1
  · rw [if_pos hk25, Except.ok.injEq] at h
    subst h
    left
    simp only [encode, assert_reg]
    rw [if_neg (show ¬ b1 % 16 > 15 from by omega)]
    simp only [ebind_ok, epure_def]
    rw [show (0xE0A1 : Nat) = 14 * 4096 + 161 from by norm_num,
      word_one_reg 14 161 _ (by norm_num) (by omega), toBeBytes_eq,
      Except.ok.injEq, Prod.mk.injEq]
    exact ⟨by omega, by omega⟩
  rw [if_neg hk25] at h
  by_cases hk26 : b1 / 16 % 16 = 0xF ∧ b2 / 16 % 16 = 0 ∧ b2 % 16 = 7
  · rw [if_pos hk26, Except.ok.injEq] at h
    subst h
    left
    simp only [encode, assert_reg]
    rw [if_neg (show ¬ b1 % 16 > 15 from by omega)]
    simp only [ebind_ok, epure_def]
    rw [show (0xF007 : Nat) = 15 * 4096 + 7 from by norm_num,
      word_one_reg 15 7 _ (by norm_num) (by omega), toBeBytes_eq,
      Except.ok.injEq, Prod.mk.injEq]
    exact ⟨by omega, by omega⟩
  rw [if_neg hk26] at h
  by_cases hk27 : b1 / 16 % 16 = 0xF ∧ b2 / 16 % 16 = 0 ∧ b2 % 16 = 0xA
  · rw [if_pos hk27, Except.ok.injEq] at h
    subst h
    left
    simp only [encode, assert_reg]
    rw [if_neg (show ¬ b1 % 16 > 15 from by omega)]
    simp only [ebind_ok, epure_def]
    rw [show (0xF00A : Nat) = 15 * 4096 + 10 from by norm_num,
      word_one_reg 15 10 _ (by norm_num) (by omega), toBeBytes_eq,
      Except.ok.injEq, Prod.mk.injEq]
    exact ⟨by omega, by omega⟩
  rw [if_neg hk27] at h
  by_cases hk28 : b1 / 16 % 16 = 0xF ∧ b2 / 16 % 16 = 1 ∧ b2 % 16 = 5
  · rw [if_pos hk28, Except.ok.injEq] at h
    subst h
    left
    simp only [encode, assert_reg]
    rw [if_neg (show ¬ b1 % 16 > 15 from by omega)]
    simp only [ebind_ok, epure_def]
    rw [show (0xF015 : Nat) = 15 * 4096 + 21 from by norm_num,
      word_one_reg 15 21 _ (by norm_num) (by omega), toBeBytes_eq,
      Except.ok.injEq, Prod.mk.injEq]
    exact ⟨by omega, by omega⟩
  rw [if_neg hk28] at h
  by_cases hk29 : b1 / 16 % 16 = 0xF ∧ b2 / 16 % 16 = 1 ∧ b2 % 16 = 8
  · rw [if_pos hk29, Except.ok.injEq] at h
    subst h
    left
    simp only [encode, assert_reg]
    rw [if_neg (show ¬ b1 % 16 > 15 from by omega)]
    simp only [ebind_ok, epure_def]
    rw [show (0xF018 : Nat) = 15 * 4096 + 24 from by norm_num,
      word_one_reg 15 24 _ (by norm_num) (by omega), toBeBytes_eq,
      Except.ok.injEq, Prod.mk.injEq]
    exact ⟨by omega, by omega⟩
  rw [if_neg hk29] at h
  by_cases hk30 : b1 / 16 % 16 = 0xF ∧ b2 / 16 % 16 = 1 ∧ b2 % 16 = 0xE
  · rw [if_pos hk30, Except.ok.injEq] at h
    subst h
    left
    simp only [encode, assert_reg]
    rw [if_neg (show ¬ b1 % 16 > 15 from by omega)]
    simp only [ebind_ok, epure_def]
    rw [show (0xF01E : Nat) = 15 * 4096 + 30 from by norm_num,
      word_one_reg 15 30 _ (by norm_num) (by omega), toBeBytes_eq,
      Except.ok.injEq, Prod.mk.injEq]
    exact ⟨by omega, by omega⟩
  rw [if_neg hk30] at h
  by_cases hk31 : b1 / 16 % 16 = 0xF ∧ b2 / 16 % 16 = 2 ∧ b2 % 16 = 9
  · rw [if_pos hk31, Except.ok.injEq] at h
    subst h
    left
    simp only [encode, assert_reg]
    rw [if_neg (show ¬ b1 % 16 > 15 from by omega)]
    simp only [ebind_ok, epure_def]
    rw [show (0xF029 : Nat) = 15 * 4096 + 41 from by norm_num,
      word_one_reg 15 41 _ (by norm_num) (by omega), toBeBytes_eq,
      Except.ok.injEq, Prod.mk.injEq]
    exact ⟨by omega, by omega⟩
  rw [if_neg hk31] at h
  by_cases hk32 : b1 / 16 % 16 = 0xF ∧ b2 / 16 % 16 = 3 ∧ b2 % 16 = 3
  · rw [if_pos hk32, Except.ok.injEq] at h
    subst h
    left
    simp only [encode, assert_reg]
    rw [if_neg (show ¬ b1 % 16 > 15 from by omega)]
    simp only [ebind_ok, epure_def]
    rw [show (0xF033 : Nat) = 15 * 4096 + 51 from by norm_num,
      word_one_reg 15 51 _ (by norm_num) (by omega), toBeBytes_eq,
      Except.ok.injEq, Prod.mk.injEq]
    exact ⟨by omega, by omega⟩
  rw [if_neg hk32] at h
  by_cases hk33 : b1 / 16 % 16 = 0xF ∧ b2 / 16 % 16 = 5 ∧ b2 % 16 = 5
  · rw [if_pos hk33, Except.ok.injEq] at h
    subst h
    left
    simp only [encode, assert_reg]
    rw [if_neg (show ¬ b1 % 16 > 15 from by omega)]
    simp only [ebind_ok, epure_def]
    rw [show (0xF055 : Nat) = 15 * 4096 + 85 from by norm_num,
      word_one_reg 15 85 _ (by norm_num) (by omega), toBeBytes_eq,
      Except.ok.injEq, Prod.mk.injEq]
    exact ⟨by omega, by omega⟩
  rw [if_neg hk33] at h
  by_cases hk34 : b1 / 16 % 16 = 0xF ∧ b2 / 16 % 16 = 6 ∧ b2 % 16 = 5
  · rw [if_pos hk34, Except.ok.injEq] at h
    subst h
    left
    simp only [encode, assert_reg]
    rw [if_neg (show ¬ b1 % 16 > 15 from by omega)]
    simp only [ebind_ok, epure_def]
    rw [show (0xF065 : Nat) = 15 * 4096 + 101 from by norm_num,
      word_one_reg 15 101 _ (by norm_num) (by omega), toBeBytes_eq,
      Except.ok.injEq, Prod.mk.injEq]
    exact ⟨by omega, by omega⟩
  rw [if_neg hk34] at h
  exact Except.noConfusion h

/-- C2 witness: the amended theorem applied at the byte pair `0x83 0xC5`. -/
theorem encode_decode_amended_witness :
    encode (.Sub 3 12) = .ok (0x83, 0xC5) ∨
    ((∃ x, Instruction.Sub 3 12 = .ShiftRight x ∨ Instruction.Sub 3 12 = .ShiftLeft x) ∧
      encode (.Sub 3 12) = .ok (0x83, 0xC5 &&& 0x0F)) :=
  encode_decode_amended 0x83 0xC5 (.Sub 3 12) (by decide) (by decide) (by decide)

/-- C7: `encode` fails with error `e` exactly when the spec-side oracle
`encodeErrSpec` (AddressTooBig iff a 12-bit address field has
`a &&& 0xF000 ≠ 0`, RegisterTooBig iff a register index operand exceeds 15,
NibbleTooBig iff Draw's row count exceeds 15) predicts `e`; and at the
boundary, `encode (Jump 0xFFF)` succeeds with the word `0x1FFF` while
`encode (Jump 0x1000)` fails with `AddressTooBig 0x1000`. -/
theorem encode_error_characterisation :
    (∀ i e, encode i = .error e ↔ encodeErrSpec i = some e) ∧
    encode (.Jump 0xFFF) = .ok (0x1F, 0xFF) ∧
    encode (.Jump 0x1000) = .error (.AddressTooBig 0x1000) := by
  refine ⟨?_, by decide, by decide⟩
  intro i e
  rcases i with _ | _ | _ | a | a | ⟨x, op⟩ | ⟨x, op⟩ | ⟨x, op⟩ | ⟨x, b⟩ |
    ⟨x, y⟩ | ⟨x, y⟩ | ⟨x, y⟩ | ⟨x, y⟩ | ⟨x, y⟩ | x | ⟨x, y⟩ | x | a | a |
    ⟨x, m⟩ | ⟨x, y, n⟩ | x | x | x | x | x | x | x | x | x | x | x
  all_goals try (rcases op with y | bb)
  all_goals simp only [encode, encodeErrSpec, assert_reg, assert_addr]
  all_goals try split_ifs
  all_goals simp [ebind_ok, ebind_error, epure_def, ethrow_def]

/-- C7 witness: the characterisation applied at `Draw 1 2 16`. -/
theorem encode_error_characterisation_witness :
    encode (.Draw 1 2 16) = .error (.NibbleTooBig 16) ↔
    encodeErrSpec (.Draw 1 2 16) = some (.NibbleTooBig 16) :=
  encode_error_characterisation.1 (.Draw 1 2 16) (.NibbleTooBig 16)

theorem scanKeys_eq_find (keys : Nat → Bool) :
    ∀ fuel i, scanKeys keys i fuel = (List.range' i fuel).find? (fun j => keys j) := by
  intro fuel
  induction fuel with
  | zero => intro i; rfl
  | succ m ih =>
      intro i
      rw [scanKeys, List.range'_succ]
      by_cases h : keys i = true
      · rw [if_pos h, List.find?_cons_of_pos _ h]
      · rw [if_neg h, List.find?_cons_of_neg _ h, ih]

theorem fetch_eq_fetchSpec (s : Chip8) : fetch s = fetchSpec s := by
  unfold fetch fetchSpec
  rw [Nat.mod_mod_of_dvd _ (by norm_num)]

/-- C4: each step does exactly what the spec describes — the interpreter's
`stepState` (pending-key scan via `find` on ascending indices, else
fetch/decode/execute with the fetch wrap through 65536 then 4096) is
extensionally the spec-worded `stepSpecState` (ascending scan, PC + 2 mod
4096); a step is that transition followed by the timer handling; the
returned display is always the new state's display (`Some(display)`);
and when 1/60 s has elapsed the timers decrement saturatingly (else stay). -/
theorem step_matches_spec :
    (∀ fontStart rand elapsed s keys,
      step fontStart rand elapsed s keys = stepSpec fontStart rand elapsed s keys) ∧
    (∀ fontStart rand elapsed s keys s2 d,
      step fontStart rand elapsed s keys = .ok (s2, d) → d = s2.display) ∧
    (∀ s : Chip8, decrementTimers true s =
      { s with delayTimer := s.delayTimer - 1, soundTimer := s.soundTimer - 1 }) ∧
    (∀ s : Chip8, decrementTimers false s = s) := by
  have hstate : ∀ fontStart rand s keys,
      stepState fontStart rand s keys = stepSpecState fontStart rand s keys := by
    intro fontStart rand s keys
    unfold stepState stepSpecState
    rw [fetch_eq_fetchSpec,
      show scanKeys keys 0 16 = (List.range 16).find? (fun i => keys i) from by
        rw [scanKeys_eq_find, List.range_eq_range']]
  refine ⟨?_, ?_, fun s => rfl, fun s => rfl⟩
  · intro fontStart rand elapsed s keys
    unfold step stepSpec
    rw [hstate]
  · intro fontStart rand elapsed s keys s2 d h
    unfold step at h
    cases hM : stepState fontStart rand s keys with
    | error e => rw [hM, ebind_error] at h; exact Except.noConfusion h
    | ok s1 =>
        rw [hM, ebind_ok] at h
        injection h with h
        injection h with h1 h2
        rw [← h2, ← h1]

/-- C4 witness: the display conjunct applied to a concrete waiting state
with no key pressed. -/
theorem step_matches_spec_witness :
    ((fun _ _ => false) : Nat → Nat → Bool) = Chip8.display
      { memory := fun _ => 0, stack := fun _ => 0, v := fun _ => 0,
        memoryRegister := 0, delayTimer := 0, soundTimer := 0,
        programCounter := 0, stackPointer := 0,
        display := fun _ _ => false, waitingForKeyPress := some 0 } :=
  step_matches_spec.2.1 0 0 false
    { memory := fun _ => 0, stack := fun _ => 0, v := fun _ => 0,
      memoryRegister := 0, delayTimer := 0, soundTimer := 0,
      programCounter := 0, stackPointer := 0,
      display := fun _ _ => false, waitingForKeyPress := some 0 }
    (fun _ => false)
    { memory := fun _ => 0, stack := fun _ => 0, v := fun _ => 0,
      memoryRegister := 0, delayTimer := 0, soundTimer := 0,
      programCounter := 0, stackPointer := 0,
      display := fun _ _ => false, waitingForKeyPress := some 0 }
    (fun _ _ => false) rfl

/-- C6: the flag semantics of the subtraction and shift-left opcodes.
`Sub x y` stores the wrapped difference `Vx − Vy` in `Vx` and then sets
`VF` to the borrow flag (`VF = 1` iff old `Vx <` old `Vy`, else 0);
`SubN x y` stores the wrapped `Vy − Vx` with `VF = 1` iff old `Vy <` old
`Vx`; `ShiftLeft x` sets `VF` to the raw masked value `Vx & 0x80` — which
is 128, not 1, when the high bit of a byte value is set, and 0 otherwise —
and then doubles `Vx` modulo 256.  Other registers are untouched. -/
theorem sub_subn_shiftleft_flags :
    (∀ fontStart rand s keys x y, x < 16 → y < 16 → x ≠ 15 →
      ∃ s', execute fontStart rand s (.Sub x y) keys = .ok s' ∧
        s'.v x = (s.v x + 256 - s.v y) % 256 ∧
        (s'.v 15 = 1 ↔ s.v x < s.v y) ∧ (s.v y ≤ s.v x → s'.v 15 = 0) ∧
        (∀ j, j ≠ x → j ≠ 15 → s'.v j = s.v j)) ∧
    (∀ fontStart rand s keys x y, x < 16 → y < 16 → x ≠ 15 →
      ∃ s', execute fontStart rand s (.SubN x y) keys = .ok s' ∧
        s'.v x = (s.v y + 256 - s.v x) % 256 ∧
        (s'.v 15 = 1 ↔ s.v y < s.v x) ∧ (s.v x ≤ s.v y → s'.v 15 = 0) ∧
        (∀ j, j ≠ x → j ≠ 15 → s'.v j = s.v j)) ∧
    (∀ fontStart rand s keys x, x < 16 → x ≠ 15 →
      ∃ s', execute fontStart rand s (.ShiftLeft x) keys = .ok s' ∧
        s'.v 15 = s.v x &&& 0x80 ∧
        s'.v x = (s.v x <<< 1) % 256 ∧
        (128 ≤ s.v x → s.v x < 256 → s'.v 15 = 128) ∧
        (s.v x < 128 → s'.v 15 = 0) ∧
        (∀ j, j ≠ x → j ≠ 15 → s'.v j = s.v j)) := by
  refine ⟨?_, ?_, ?_⟩
  · intro fontStart rand s keys x y hx hy hx15
    refine ⟨updReg (updReg s x ((s.v x + 256 - s.v y) % 256)) 15
      (if s.v x < s.v y then 1 else 0), ?_, ?_, ?_, ?_, ?_⟩
    · simp [execute, readReg, writeReg, hx, hy, ebind_ok]
    · simp [updReg, hx15]
    · simp only [updReg]
      split_ifs <;> simp_all
    · intro hle
      simp only [updReg]
      split_ifs <;> simp_all <;> omega
    · intro j hjx hj15
      simp [updReg, hjx, hj15]
  · intro fontStart rand s keys x y hx hy hx15
    refine ⟨updReg (updReg s x ((s.v y + 256 - s.v x) % 256)) 15
      (if s.v y < s.v x then 1 else 0), ?_, ?_, ?_, ?_, ?_⟩
    · simp [execute, readReg, writeReg, hx, hy, ebind_ok]
    · simp [updReg, hx15]
    · simp only [updReg]
      split_ifs <;> simp_all
    · intro hle
      simp only [updReg]
      split_ifs <;> simp_all <;> omega
    · intro j hjx hj15
      simp [updReg, hjx, hj15]
  · intro fontStart rand s keys x hx hx15
    refine ⟨updReg (updReg s 15 (s.v x &&& 0x80)) x ((s.v x <<< 1) % 256),
      ?_, ?_, ?_, ?_, ?_, ?_⟩
    · simp [execute, readReg, writeReg, updReg, hx, hx15, Ne.symm hx15, ebind_ok]
    · simp [updReg, hx15, Ne.symm hx15]
    · simp [updReg]
    · intro h1 h2
      simp [updReg, hx15, Ne.symm hx15]
      rw [land_0x80]
      omega
    · intro h1
      simp [updReg, hx15, Ne.symm hx15]
      rw [land_0x80]
      omega
    · intro j hjx hj15
      simp [updReg, hjx, hj15]

/-- C6 witness: the three parts applied at `Sub 2 3`, `SubN 2 3` and
`ShiftLeft 4` on the concrete state `c6state`. -/
theorem sub_subn_shiftleft_flags_witness :
    (∃ s', execute 0 0 c6state (.Sub 2 3) (fun _ => false) = .ok s' ∧
      s'.v 2 = (c6state.v 2 + 256 - c6state.v 3) % 256 ∧
      (s'.v 15 = 1 ↔ c6state.v 2 < c6state.v 3) ∧
      (c6state.v 3 ≤ c6state.v 2 → s'.v 15 = 0) ∧
      (∀ j, j ≠ 2 → j ≠ 15 → s'.v j = c6state.v j)) ∧
    (∃ s', execute 0 0 c6state (.ShiftLeft 4) (fun _ => false) = .ok s' ∧
      s'.v 15 = c6state.v 4 &&& 0x80 ∧
      s'.v 4 = (c6state.v 4 <<< 1) % 256 ∧
      (128 ≤ c6state.v 4 → c6state.v 4 < 256 → s'.v 15 = 128) ∧
      (c6state.v 4 < 128 → s'.v 15 = 0) ∧
      (∀ j, j ≠ 4 → j ≠ 15 → s'.v j = c6state.v j)) :=
  ⟨sub_subn_shiftleft_flags.1 0 0 c6state (fun _ => false) 2 3
      (by norm_num) (by norm_num) (by norm_num),
    sub_subn_shiftleft_flags.2.2 0 0 c6state (fun _ => false) 4
      (by norm_num) (by norm_num)⟩

theorem fetch_eval (s : Chip8) (h1 : s.programCounter < 4095) :
    fetch s = .ok (s.memory s.programCounter, s.memory (s.programCounter + 1),
      { s with programCounter := ((s.programCounter + 2) % 65536) % 4096 }) := by
  unfold fetch readMem
  rw [if_pos (by omega), if_pos (by omega)]
  simp only [ebind_ok]

theorem stepState_not_waiting (fontStart rand : Nat) (s : Chip8) (keys : Nat → Bool)
    (hw : s.waitingForKeyPress = none) (b1 b2 : Nat) (s1 : Chip8)
    (hf : fetch s = .ok (b1, b2, s1)) (i : Instruction)
    (hd : decode b1 b2 = .ok i) :
    stepState fontStart rand s keys = execute fontStart rand s1 i keys := by
  unfold stepState
  rw [hw, hf]
  simp only [ebind_ok, hd]

theorem c3rom_length : c3rom.length = 3582 := by
  unfold c3rom
  rw [List.length_append, List.length_append, List.length_replicate]
  norm_num

theorem c3rom_len_aux : ([(0x1F : Nat), 0xFC] ++ List.replicate 3578 0).length = 3580 := by
  rw [List.length_append, List.length_replicate]
  norm_num

theorem c3rom_getD : c3rom.getD 0 0 = 0x1F ∧ c3rom.getD 1 0 = 0xFC ∧
    c3rom.getD 3580 0 = 0x30 ∧ c3rom.getD 3581 0 = 0 := by
  have haux := c3rom_len_aux
  refine ⟨rfl, rfl, ?_, ?_⟩
  · unfold c3rom
    rw [List.getD_append_right _ _ _ _ (by rw [haux])]
    rw [haux, show (3580 : Nat) - 3580 = 0 from rfl]
    rfl
  · unfold c3rom
    rw [List.getD_append_right _ _ _ _ (by rw [haux]; norm_num)]
    rw [haux, show (3581 : Nat) - 3580 = 1 from rfl]
    rfl

theorem c3mem (fontStart : Nat) (font : Nat → Nat) (hf : fontStart + 80 ≤ 512) :
    init_memory fontStart font c3rom 512 = 0x1F ∧
    init_memory fontStart font c3rom 513 = 0xFC ∧
    init_memory fontStart font c3rom 4092 = 0x30 ∧
    init_memory fontStart font c3rom 4093 = 0 := by
  have hlen := c3rom_length
  have hg := c3rom_getD
  unfold init_memory
  refine ⟨?_, ?_, ?_, ?_⟩
  · rw [hlen, if_neg (by omega), if_pos (by norm_num),
      show (512 : Nat) - 512 = 0 from rfl]
    exact hg.1
  · rw [hlen, if_neg (by omega), if_pos (by norm_num),
      show (513 : Nat) - 512 = 1 from rfl]
    exact hg.2.1
  · rw [hlen, if_neg (by omega), if_pos (by norm_num),
      show (4092 : Nat) - 512 = 3580 from rfl]
    exact hg.2.2.1
  · rw [hlen, if_neg (by omega), if_pos (by norm_num),
      show (4093 : Nat) - 512 = 3581 from rfl]
    exact hg.2.2.2

/-- C3 (refuted): two steps from a fresh interpreter on `c3rom` leave the
program counter at 4096, outside `[0, 4096)`, at a step boundary — the
skip instructions advance `PC` without the wrap that `fetch` applies, so
the claimed invariant `PC < 4096` fails (the next fetch would index
`memory[4096]` out of bounds). -/
theorem skip_breaks_pc_invariant (fontStart : Nat) (font : Nat → Nat)
    (keys : Nat → Bool) (rand : Nat) (hf : fontStart + 80 ≤ 0x200) :
    ∃ s1 s2 : Chip8, ∃ d1 d2 : Nat → Nat → Bool,
      step fontStart rand false (Chip8.new fontStart font c3rom) keys = .ok (s1, d1) ∧
      step fontStart rand false s1 keys = .ok (s2, d2) ∧
      s1.programCounter = 0xFFC ∧ s2.programCounter = 4096 ∧
      ¬ s2.programCounter < 4096 := by
  have hm := c3mem fontStart font (by omega)
  have h512 : (Chip8.new fontStart font c3rom).memory 512 = 0x1F := hm.1
  have h513 : (Chip8.new fontStart font c3rom).memory 513 = 0xFC := hm.2.1
  have h4092 : ({ Chip8.new fontStart font c3rom with
      programCounter := 0xFFC } : Chip8).memory 4092 = 0x30 := hm.2.2.1
  have h4093 : ({ Chip8.new fontStart font c3rom with
      programCounter := 0xFFC } : Chip8).memory 4093 = 0 := hm.2.2.2
  have hfetch1 : fetch (Chip8.new fontStart font c3rom) =
      .ok (0x1F, 0xFC, { Chip8.new fontStart font c3rom with programCounter := 514 }) := by
    rw [fetch_eval _ (by norm_num : (512 : Nat) < 4095)]
    rw [show (Chip8.new fontStart font c3rom).programCounter = 512 from rfl]
    norm_num
    rw [h512, h513]
    exact ⟨rfl, rfl⟩
  have hstep1 : step fontStart rand false (Chip8.new fontStart font c3rom) keys =
      .ok ({ Chip8.new fontStart font c3rom with programCounter := 0xFFC },
        fun _ _ => false) := by
    unfold step
    rw [stepState_not_waiting fontStart rand _ keys rfl _ _ _ hfetch1
      (.Jump 0xFFC) (by decide)]
    rw [show execute fontStart rand
        { Chip8.new fontStart font c3rom with programCounter := 514 }
        (.Jump 0xFFC) keys =
      .ok { Chip8.new fontStart font c3rom with programCounter := 0xFFC } from rfl]
    rw [ebind_ok]
    rfl
  have hfetch2 : fetch ({ Chip8.new fontStart font c3rom with programCounter := 0xFFC }) =
      .ok (0x30, 0x00, { Chip8.new fontStart font c3rom with programCounter := 4094 }) := by
    rw [fetch_eval _ (by norm_num : (4092 : Nat) < 4095)]
    rw [show ({ Chip8.new fontStart font c3rom with
      programCounter := 0xFFC } : Chip8).programCounter = 4092 from rfl]
    norm_num
    rw [h4092, h4093]
    exact ⟨rfl, rfl⟩
  have hstep2 : step fontStart rand false
      ({ Chip8.new fontStart font c3rom with programCounter := 0xFFC }) keys =
      .ok ({ Chip8.new fontStart font c3rom with programCounter := 4096 },
        fun _ _ => false) := by
    unfold step
    rw [stepState_not_waiting fontStart rand _ keys rfl _ _ _ hfetch2
      (.SkipIfEqual 0 (.Literal 0)) (by decide)]
    rw [show execute fontStart rand
        { Chip8.new fontStart font c3rom with programCounter := 4094 }
        (.SkipIfEqual 0 (.Literal 0)) keys =
      .ok { Chip8.new fontStart font c3rom with programCounter := 4096 } from rfl]
    rw [ebind_ok]
    rfl
  exact ⟨_, _, _, _, hstep1, hstep2, rfl, rfl, by norm_num⟩

/-- C3 witness: the violating trace with the font placed at 0 and an
all-zero font, no keys pressed. -/
theorem skip_breaks_pc_invariant_witness :
    ∃ s1 s2 : Chip8, ∃ d1 d2 : Nat → Nat → Bool,
      step 0 0 false (Chip8.new 0 (fun _ => 0) c3rom) (fun _ => false) = .ok (s1, d1) ∧
      step 0 0 false s1 (fun _ => false) = .ok (s2, d2) ∧
      s1.programCounter = 0xFFC ∧ s2.programCounter = 4096 ∧
      ¬ s2.programCounter < 4096 :=
  skip_breaks_pc_invariant 0 (fun _ => 0) (fun _ => false) 0 (by norm_num)

theorem range_reverse_succ (m : Nat) :
    (List.range (m + 1)).reverse = m :: (List.range m).reverse := by
  rw [List.range_succ, List.reverse_append, List.reverse_singleton, List.singleton_append]

theorem xor_bitAt_congr (d : Bool) (mem : Nat → Nat) (a b p q : Nat)
    (ha : a = b) (hp : p = q) :
    Bool.xor d (bitAt (mem a) p) = Bool.xor d (bitAt (mem b) q) := by
  rw [ha, hp]

theorem updDisp_display (s : Chip8) (y x : Nat) (p : Bool) (j i : Nat) :
    (updDisp s y x p).display j i = if j = y ∧ i = x then p else s.display j i := rfl

/-- Closed-form behaviour of the inner `Draw` pixel loop over the bit
positions `[m-1, ..., 0]` starting at column `x`: pixels at columns
`x <= i < x + m` with `i < 64` are XORed with bit `x + m - 1 - i` of the
row; `VF` becomes 1 exactly when some drawn sprite bit hits an already-set
pixel; nothing else changes. -/
theorem drawBits_char (row y : Nat) (hy : y < 32) :
    ∀ (m x : Nat) (s : Chip8),
    ∃ s', drawBits row y ((List.range m).reverse) x s = .ok s' ∧
      (∀ j i, s'.display j i =
        if j = y ∧ x ≤ i ∧ i < x + m ∧ i < 64
        then Bool.xor (s.display j i) (bitAt row (x + m - 1 - i))
        else s.display j i) ∧
      (∀ j, j ≠ 15 → s'.v j = s.v j) ∧
      ((∃ c, c < m ∧ x + c < 64 ∧ bitAt row (m - 1 - c) = true ∧
          s.display y (x + c) = true) → s'.v 15 = 1) ∧
      ((¬ ∃ c, c < m ∧ x + c < 64 ∧ bitAt row (m - 1 - c) = true ∧
          s.display y (x + c) = true) → s'.v 15 = s.v 15) ∧
      s'.memory = s.memory ∧ s'.stack = s.stack ∧
      s'.memoryRegister = s.memoryRegister ∧ s'.delayTimer = s.delayTimer ∧
      s'.soundTimer = s.soundTimer ∧ s'.programCounter = s.programCounter ∧
      s'.stackPointer = s.stackPointer ∧
      s'.waitingForKeyPress = s.waitingForKeyPress := by
  intro m
  induction m with
  | zero =>
      intro x s
      refine ⟨s, rfl, ?_, fun j _ => rfl, ?_, fun _ => rfl,
        rfl, rfl, rfl, rfl, rfl, rfl, rfl, rfl⟩
      · intro j i
        rw [if_neg (by omega)]
      · rintro ⟨c, hc, -⟩
        omega
  | succ m ih =>
      intro x s
      rw [range_reverse_succ]
      by_cases hx : x ≥ 64
      · refine ⟨s, ?_, ?_, fun j _ => rfl, ?_, fun _ => rfl,
          rfl, rfl, rfl, rfl, rfl, rfl, rfl, rfl⟩
        · simp only [drawBits]
          rw [if_pos hx]
        · intro j i
          rw [if_neg (by omega)]
        · rintro ⟨c, hc, hlt, -⟩
          omega
      · have hxlt : x < 64 := by omega
        by_cases hcol : (s.display y x && bitAt row m) = true
        · obtain ⟨s', hdraw, hdisp, hvj, hv1, hv2, hmem, hstk, hmr, hdt, hst,
            hpc, hsp, hwk⟩ := ih (x + 1)
            (updReg (updDisp s y x (Bool.xor (s.display y x) (bitAt row m))) 15 1)
          refine ⟨s', ?_, ?_, ?_, ?_, ?_, hmem, hstk, hmr, hdt, hst, hpc, hsp, hwk⟩
          · simp only [drawBits]
            rw [if_neg hx]
            unfold readDisp writeDisp
            rw [if_pos (⟨hy, hxlt⟩ : y < 32 ∧ x < 64)]
            simp only [ebind_ok]
            rw [if_pos (⟨hy, hxlt⟩ : y < 32 ∧ x < 64)]
            simp only [ebind_ok]
            rw [if_pos hcol]
            exact hdraw
          · intro j i
            rcases eq_or_ne j y with rfl | hj
            · rcases eq_or_ne i x with rfl | hi
              · simp only [hdisp, updReg, updDisp_display, eq_self_iff_true, true_and, if_true]
                split_ifs <;>
                  first | rfl | omega | exact congrArg _ (congrArg _ (by omega))
              · simp only [hdisp, updReg, updDisp_display, eq_self_iff_true, true_and, if_true]
                split_ifs <;>
                  first | rfl | omega | exact congrArg _ (congrArg _ (by omega))
            · simp only [hdisp, updReg, updDisp_display, eq_self_iff_true, true_and, if_true]
              split_ifs <;> first | rfl | omega
          · intro j hj
            rw [hvj j hj]
            simp [updReg, updDisp, hj]
          · intro _
            by_cases hex : ∃ c, c < m ∧ x + 1 + c < 64 ∧
                bitAt row (m - 1 - c) = true ∧
                (updReg (updDisp s y x
                  (Bool.xor (s.display y x) (bitAt row m))) 15 1).display
                  y (x + 1 + c) = true
            · exact hv1 hex
            · rw [hv2 hex]
              simp [updReg]
          · intro hne
            rw [Bool.and_eq_true] at hcol
            exact absurd ⟨0, by omega, by omega, hcol.2, hcol.1⟩ hne
        · obtain ⟨s', hdraw, hdisp, hvj, hv1, hv2, hmem, hstk, hmr, hdt, hst,
            hpc, hsp, hwk⟩ := ih (x + 1)
            (updDisp s y x (Bool.xor (s.display y x) (bitAt row m)))
          refine ⟨s', ?_, ?_, ?_, ?_, ?_, hmem, hstk, hmr, hdt, hst, hpc, hsp, hwk⟩
          · simp only [drawBits]
            rw [if_neg hx]
            unfold readDisp writeDisp
            rw [if_pos (⟨hy, hxlt⟩ : y < 32 ∧ x < 64)]
            simp only [ebind_ok]
            rw [if_pos (⟨hy, hxlt⟩ : y < 32 ∧ x < 64)]
            simp only [ebind_ok]
            rw [if_neg hcol]
            exact hdraw
          · intro j i
            rcases eq_or_ne j y with rfl | hj
            · rcases eq_or_ne i x with rfl | hi
              · simp only [hdisp, updDisp_display, eq_self_iff_true, true_and, if_true]
                split_ifs <;>
                  first | rfl | omega | exact congrArg _ (congrArg _ (by omega))
              · simp only [hdisp, updDisp_display, eq_self_iff_true, true_and, if_true]
                split_ifs <;>
                  first | rfl | omega | exact congrArg _ (congrArg _ (by omega))
            · simp only [hdisp, updDisp_display, eq_self_iff_true, true_and, if_true]
              split_ifs <;> first | rfl | omega
          · intro j hj
            exact hvj j hj
          · rintro ⟨c, hc, hlt, hbit, hd⟩
            rcases c with - | c
            · exact absurd (by rw [Bool.and_eq_true]; exact ⟨hd, hbit⟩) hcol
            · refine hv1 ⟨c, by omega, by omega, ?_, ?_⟩
              · rwa [show m + 1 - 1 - (c + 1) = m - 1 - c from by omega] at hbit
              · rw [updDisp_display, if_neg (by omega),
                  show x + 1 + c = x + (c + 1) from by omega]
                exact hd
          · intro hne
            have htail : ¬ ∃ c, c < m ∧ x + 1 + c < 64 ∧
                bitAt row (m - 1 - c) = true ∧
                (updDisp s y x (Bool.xor (s.display y x)
                  (bitAt row m))).display y (x + 1 + c) = true := by
              rintro ⟨c, hc, hlt, hbit, hd⟩
              rw [updDisp_display, if_neg (by omega)] at hd
              refine hne ⟨c + 1, by omega, by omega, ?_, ?_⟩
              · rwa [show m + 1 - 1 - (c + 1) = m - 1 - c from by omega]
              · rwa [show x + (c + 1) = x + 1 + c from by omega]
            rw [hv2 htail]
            rfl

/-- Closed-form behaviour of the outer `Draw` row loop over offsets
`[o, …, o+m)` with display row `y` for offset `o`: the first
`min m (32 - y)` rows are drawn (vertical clipping stops the loop, but
only after the next row byte has been read — hence the read-bound
hypothesis covers all `m` offsets); `VF` becomes 1 exactly when some drawn
sprite bit hits an already-set pixel. -/
theorem drawRows_char (base fx : Nat) (hfx : fx < 64) :
    ∀ (m o y : Nat) (s : Chip8), (∀ k, k < m → base + (o + k) < 4096) →
    ∃ s', drawRows base fx (List.range' o m) y s = .ok s' ∧
      (∀ j i, s'.display j i =
        if y ≤ j ∧ j < y + min m (32 - y) ∧ fx ≤ i ∧ i < fx + 8 ∧ i < 64
        then Bool.xor (s.display j i)
          (bitAt (s.memory (base + (o + (j - y)))) (fx + 7 - i))
        else s.display j i) ∧
      (∀ j, j ≠ 15 → s'.v j = s.v j) ∧
      ((∃ r c, r < min m (32 - y) ∧ c < 8 ∧ fx + c < 64 ∧
          bitAt (s.memory (base + (o + r))) (7 - c) = true ∧
          s.display (y + r) (fx + c) = true) → s'.v 15 = 1) ∧
      ((¬ ∃ r c, r < min m (32 - y) ∧ c < 8 ∧ fx + c < 64 ∧
          bitAt (s.memory (base + (o + r))) (7 - c) = true ∧
          s.display (y + r) (fx + c) = true) → s'.v 15 = s.v 15) ∧
      s'.memory = s.memory ∧ s'.stack = s.stack ∧
      s'.memoryRegister = s.memoryRegister ∧ s'.delayTimer = s.delayTimer ∧
      s'.soundTimer = s.soundTimer ∧ s'.programCounter = s.programCounter ∧
      s'.stackPointer = s.stackPointer ∧
      s'.waitingForKeyPress = s.waitingForKeyPress := by
  intro m
  induction m with
  | zero =>
      intro o y s h
      refine ⟨s, rfl, ?_, fun j _ => rfl, ?_, fun _ => rfl,
        rfl, rfl, rfl, rfl, rfl, rfl, rfl, rfl⟩
      · intro j i
        rw [if_neg (by omega)]
      · rintro ⟨r, c, hr, -⟩
        omega
  | succ m ih =>
      intro o y s h
      rw [List.range'_succ]
      by_cases hy : y ≥ 32
      · refine ⟨s, ?_, ?_, fun j _ => rfl, ?_, fun _ => rfl,
          rfl, rfl, rfl, rfl, rfl, rfl, rfl, rfl⟩
        · simp only [drawRows]
          unfold readMem
          rw [if_pos (show base + o < 4096 from by have := h 0 (by omega); omega)]
          simp only [ebind_ok]
          rw [if_pos hy]
        · intro j i
          rw [if_neg (by omega)]
        · rintro ⟨r, c, hr, -⟩
          omega
      · have hylt : y < 32 := by omega
        obtain ⟨s1, hdraw1, hdisp1, hvj1, hv11, hv21, hmem1, hstk1, hmr1, hdt1,
          hst1, hpc1, hsp1, hwk1⟩ := drawBits_char (s.memory (base + o)) y hylt 8 fx s
        obtain ⟨s', hdrawI, hdispI, hvjI, hv1I, hv2I, hmemI, hstkI, hmrI, hdtI,
          hstI, hpcI, hspI, hwkI⟩ := ih (o + 1) (y + 1) s1
          (fun k hk => by have := h (k + 1) (by omega); omega)
        rw [hmem1] at hdispI hv1I hv2I
        refine ⟨s', ?_, ?_, ?_, ?_, ?_, by rw [hmemI, hmem1], by rw [hstkI, hstk1],
          by rw [hmrI, hmr1], by rw [hdtI, hdt1], by rw [hstI, hst1],
          by rw [hpcI, hpc1], by rw [hspI, hsp1], by rw [hwkI, hwk1]⟩
        · simp only [drawRows]
          unfold readMem
          rw [if_pos (show base + o < 4096 from by have := h 0 (by omega); omega)]
          simp only [ebind_ok]
          rw [if_neg hy]
          rw [show ([7, 6, 5, 4, 3, 2, 1, 0] : List Nat) =
            (List.range 8).reverse from by decide]
          rw [hdraw1]
          simp only [ebind_ok]
          exact hdrawI
        · intro j i
          rw [hdispI j i, hdisp1 j i]
          split_ifs <;>
            first
              | rfl
              | omega
              | exact xor_bitAt_congr _ _ _ _ _ _ (by omega) (by omega)
        · intro j hj
          rw [hvjI j hj, hvj1 j hj]
        · rintro ⟨r, c, hr, hc, hlt, hbit, hd⟩
          rcases r with - | r
          · have h1 : s1.v 15 = 1 := hv11 ⟨c, hc, hlt, hbit, hd⟩
            by_cases hex : ∃ r c, r < min m (32 - (y + 1)) ∧ c < 8 ∧ fx + c < 64 ∧
                bitAt (s.memory (base + (o + 1 + r))) (7 - c) = true ∧
                s1.display (y + 1 + r) (fx + c) = true
            · exact hv1I hex
            · rw [hv2I hex]
              exact h1
          · refine hv1I ⟨r, c, by omega, hc, hlt, ?_, ?_⟩
            · rw [show base + (o + 1 + r) = base + (o + (r + 1)) from by omega]
              exact hbit
            · rw [hdisp1 (y + 1 + r) (fx + c), if_neg (by omega),
                show y + 1 + r = y + (r + 1) from by omega]
              exact hd
        · intro hne
          have h1 : ¬ ∃ c, c < 8 ∧ fx + c < 64 ∧
              bitAt (s.memory (base + o)) (8 - 1 - c) = true ∧
              s.display y (fx + c) = true := by
            rintro ⟨c, hc, hlt, hbit, hd⟩
            exact hne ⟨0, c, by omega, hc, hlt, hbit, hd⟩
          have hIH : ¬ ∃ r c, r < min m (32 - (y + 1)) ∧ c < 8 ∧ fx + c < 64 ∧
              bitAt (s.memory (base + (o + 1 + r))) (7 - c) = true ∧
              s1.display (y + 1 + r) (fx + c) = true := by
            rintro ⟨r, c, hr, hc, hlt, hbit, hd⟩
            rw [hdisp1 (y + 1 + r) (fx + c), if_neg (by omega)] at hd
            refine hne ⟨r + 1, c, by omega, hc, hlt, ?_, ?_⟩
            · rwa [show base + (o + (r + 1)) = base + (o + 1 + r) from by omega]
            · rwa [show y + (r + 1) = y + 1 + r from by omega]
          rw [hv2I hIH, hv21 h1]

theorem execute_draw_eval (fontStart rand : Nat) (s : Chip8) (keys : Nat → Bool)
    (x y n : Nat) (hx : x < 16) (hy : y < 16) :
    execute fontStart rand s (.Draw x y n) keys =
      drawRows ((updReg s 15 0).memoryRegister) (s.v x % 64) (List.range' 0 n)
        (s.v y % 32) (updReg s 15 0) := by
  simp only [execute]
  unfold readReg
  rw [if_pos hx, if_pos hy]
  simp only [ebind_ok]
  rw [List.range_eq_range']

/-- C5: `Draw x y n` draws the `n`-row sprite at `memory[I..I+n]` starting
at `(Vx mod 64, Vy mod 32)`: the first `min n (32 - Vy mod 32)` rows are
XORed pixelwise onto the display (bit `7-c` of row `r` lands on pixel
`(Vx mod 64 + c, Vy mod 32 + r)`), clipping at column 64 with no
horizontal wrap and stopping at row 32 with no vertical wrap; `VF` ends 1
exactly when some drawn sprite bit hits an already-white pixel, else 0
(it is cleared first); memory, `PC`, `I` and the other registers are
untouched, and `n = 0` draws nothing and leaves `VF = 0`. -/
theorem draw_characterisation :
    ∀ fontStart rand s keys x y n, x < 16 → y < 16 →
      s.memoryRegister + n ≤ 4096 →
      ∃ s', execute fontStart rand s (.Draw x y n) keys = .ok s' ∧
        (∀ j i, s'.display j i =
          if s.v y % 32 ≤ j ∧ j < s.v y % 32 + min n (32 - s.v y % 32) ∧
              s.v x % 64 ≤ i ∧ i < s.v x % 64 + 8 ∧ i < 64
          then Bool.xor (s.display j i)
            (bitAt (s.memory (s.memoryRegister + (j - s.v y % 32)))
              (s.v x % 64 + 7 - i))
          else s.display j i) ∧
        ((∃ r c, r < min n (32 - s.v y % 32) ∧ c < 8 ∧ s.v x % 64 + c < 64 ∧
            bitAt (s.memory (s.memoryRegister + r)) (7 - c) = true ∧
            s.display (s.v y % 32 + r) (s.v x % 64 + c) = true) → s'.v 15 = 1) ∧
        ((¬ ∃ r c, r < min n (32 - s.v y % 32) ∧ c < 8 ∧ s.v x % 64 + c < 64 ∧
            bitAt (s.memory (s.memoryRegister + r)) (7 - c) = true ∧
            s.display (s.v y % 32 + r) (s.v x % 64 + c) = true) → s'.v 15 = 0) ∧
        (∀ j, j ≠ 15 → s'.v j = s.v j) ∧
        s'.memory = s.memory ∧ s'.programCounter = s.programCounter ∧
        s'.memoryRegister = s.memoryRegister ∧
        (n = 0 → s'.display = s.display ∧ s'.v 15 = 0) := by
  intro fontStart rand s keys x y n hx hy hmem
  obtain ⟨s', hdraw, hdisp, hvj, hv1, hv2, hmemE, hstk, hmr, hdt, hst, hpc,
    hsp, hwk⟩ :=
    drawRows_char ((updReg s 15 0).memoryRegister) (s.v x % 64)
      (Nat.mod_lt _ (by norm_num)) n 0 (s.v y % 32) (updReg s 15 0)
      (fun k hk => by
        show s.memoryRegister + (0 + k) < 4096
        omega)
  have hI : (updReg s 15 0).memoryRegister = s.memoryRegister := rfl
  have hM : (updReg s 15 0).memory = s.memory := rfl
  have hD : (updReg s 15 0).display = s.display := rfl
  have hV : (updReg s 15 0).v 15 = 0 := rfl
  rw [hI, hM, hD] at hdisp
  rw [hI, hM, hD] at hv1
  rw [hI, hM, hD, hV] at hv2
  refine ⟨s', ?_, ?_, ?_, ?_, ?_, hmemE, hpc, hmr, ?_⟩
  · rw [execute_draw_eval fontStart rand s keys x y n hx hy]
    exact hdraw
  · intro j i
    rw [hdisp j i]
    split_ifs <;>
      first
        | rfl
        | omega
        | exact xor_bitAt_congr _ _ _ _ _ _ (by omega) (by omega)
  · rintro ⟨r, c, hr, hc, hlt, hbit, hd⟩
    refine hv1 ⟨r, c, hr, hc, hlt, ?_, hd⟩
    rwa [show s.memoryRegister + (0 + r) = s.memoryRegister + r from by omega]
  · intro hne
    rw [hv2 (by
      rintro ⟨r, c, hr, hc, hlt, hbit, hd⟩
      refine hne ⟨r, c, hr, hc, hlt, ?_, hd⟩
      rwa [show s.memoryRegister + (0 + r) = s.memoryRegister + r from by omega]
        at hbit)]
  · intro j hj
    rw [hvj j hj]
    simp [updReg, hj]
  · intro hn0
    subst hn0
    refine ⟨?_, ?_⟩
    · funext j i
      rw [hdisp j i, if_neg (by omega)]
    · rw [hv2 (by rintro ⟨r, c, hr, -⟩; omega)]

/-- C5 witness: the characterisation applied at `Draw 0 1 1` on `c6state`. -/
theorem draw_characterisation_witness :
    ∃ s', execute 0 0 c6state (.Draw 0 1 1) (fun _ => false) = .ok s' := by
  obtain ⟨s', h, -⟩ := draw_characterisation 0 0 c6state (fun _ => false) 0 1 1
    (by decide) (by decide) (by decide)
  exact ⟨s', h⟩

/-- C10: `Draw` reads each sprite row byte before checking whether the row
lies below the display, and under `I + n ≤ 4096` every access is in
bounds.  First conjunct: whenever `I + n ≤ 4096` (and the decoded 4-bit
fields are in range) `Draw` executes without any out-of-bounds error.
Remaining conjuncts: from `I = 4095`, `V1 = 31`, `Draw 0 1 2` fails with
`MemoryOutOfBounds 4096` — the second row byte at `I + 1 = 4096` is read
even though that row (at `y = 32`) would be clipped, so a
check-before-read implementation would have succeeded. -/
theorem draw_reads_before_bounds_check :
    (∀ fontStart rand s keys x y n, x < 16 → y < 16 →
      s.memoryRegister + n ≤ 4096 →
      ∃ s', execute fontStart rand s (.Draw x y n) keys = .ok s') ∧
    c10state.memoryRegister = 4095 ∧ c10state.v 1 % 32 = 31 ∧
    execute 0 0 c10state (.Draw 0 1 2) (fun _ => false) =
      .error (.MemoryOutOfBounds 4096) := by
  refine ⟨?_, rfl, rfl, ?_⟩
  · intro fontStart rand s keys x y n hx hy hmem
    obtain ⟨s', hdraw, -⟩ :=
      drawRows_char ((updReg s 15 0).memoryRegister) (s.v x % 64)
        (Nat.mod_lt _ (by norm_num)) n 0 (s.v y % 32) (updReg s 15 0)
        (fun k hk => by
          show s.memoryRegister + (0 + k) < 4096
          omega)
    refine ⟨s', ?_⟩
    rw [execute_draw_eval fontStart rand s keys x y n hx hy]
    exact hdraw
  · rfl

/-- C10 witness: the safety conjunct applied at `Draw 0 1 1` on
`c10state` (`I + 1 = 4096` is still in bounds). -/
theorem draw_reads_before_bounds_check_witness :
    ∃ s', execute 0 0 c10state (.Draw 0 1 1) (fun _ => false) = .ok s' := by
  obtain ⟨s', h⟩ := draw_reads_before_bounds_check.1 0 0 c10state (fun _ => false)
    0 1 1 (by decide) (by decide) (by decide)
  exact ⟨s', h⟩

/-- C8: the first pass computes emission offsets starting at `0x200`,
adding each raw-data definition's byte length and exactly 2 per
instruction statement, and binds a (fresh) label to the current offset;
every accepted statement list produces a ROM whose length is the sum of
the raw-data lengths plus twice the number of instruction statements; and
the spec's example program assembles to exactly `60 05 12 00`. -/
theorem codegen_offsets_and_length :
    (∀ stmts offset m o' m', offset < 65536 →
      pass1 stmts offset m = .ok (o', m') →
      o' = (offset + stmtsCost stmts) % 65536) ∧
    (∀ name rest offset m, List.lookup name m = none →
      pass1 (Stmt.Label name :: rest) offset m =
        pass1 rest offset ((name, AliasableThing.RawData offset) :: m)) ∧
    (∀ stmts m bytes, pass2 m stmts = .ok bytes →
      bytes.length = stmtsCost stmts) ∧
    (∀ stmts bytes, codegen stmts = .ok bytes →
      bytes.length = stmtsCost stmts) ∧
    codegen c8prog = .ok [0x60, 0x05, 0x12, 0x00] := by
  have h1 : ∀ stmts offset m o' m', offset < 65536 →
      pass1 stmts offset m = .ok (o', m') →
      o' = (offset + stmtsCost stmts) % 65536 := by
    intro stmts
    induction stmts with
    | nil =>
        intro offset m o' m' ho h
        cases h
        simp only [stmtsCost]
        omega
    | cons stmt rest ih =>
        intro offset m o' m' ho h
        cases stmt with
        | AliasDefinition name thing =>
            rw [show stmtsCost (Stmt.AliasDefinition name thing :: rest) =
              stmtsCost rest from rfl]
            simp only [pass1] at h
            by_cases hmem : (List.lookup name m).isSome = true
            · rw [if_pos hmem] at h
              exact Except.noConfusion h
            · rw [if_neg hmem] at h
              exact ih offset _ o' m' ho h
        | RawDataDefinition data =>
            simp only [pass1] at h
            have hrec := ih ((offset + data.length) % 65536) m o' m'
              (Nat.mod_lt _ (by norm_num)) h
            rw [hrec, show stmtsCost (Stmt.RawDataDefinition data :: rest) =
              data.length + stmtsCost rest from rfl]
            omega
        | Label name =>
            rw [show stmtsCost (Stmt.Label name :: rest) = stmtsCost rest from rfl]
            simp only [pass1] at h
            by_cases hmem : (List.lookup name m).isSome = true
            · rw [if_pos hmem] at h
              exact Except.noConfusion h
            · rw [if_neg hmem] at h
              exact ih offset _ o' m' ho h
        | PseudoInstruction pi =>
            simp only [pass1] at h
            have hrec := ih ((offset + 2) % 65536) m o' m'
              (Nat.mod_lt _ (by norm_num)) h
            rw [hrec, show stmtsCost (Stmt.PseudoInstruction pi :: rest) =
              2 + stmtsCost rest from rfl]
            omega
        | Include path =>
            rw [show stmtsCost (Stmt.Include path :: rest) = stmtsCost rest from rfl]
            simp only [pass1] at h
            exact ih offset m o' m' ho h
  have h3 : ∀ stmts m bytes, pass2 m stmts = .ok bytes →
      bytes.length = stmtsCost stmts := by
    intro stmts
    induction stmts with
    | nil =>
        intro m bytes h
        cases h
        rfl
    | cons stmt rest ih =>
        intro m bytes h
        cases stmt with
        | AliasDefinition name thing =>
            simp only [pass2] at h
            rw [show stmtsCost (Stmt.AliasDefinition name thing :: rest) =
              stmtsCost rest from rfl]
            exact ih m bytes h
        | Label name =>
            simp only [pass2] at h
            rw [show stmtsCost (Stmt.Label name :: rest) = stmtsCost rest from rfl]
            exact ih m bytes h
        | Include path =>
            simp only [pass2] at h
            rw [show stmtsCost (Stmt.Include path :: rest) = stmtsCost rest from rfl]
            exact ih m bytes h
        | RawDataDefinition data =>
            simp only [pass2] at h
            cases hrest : pass2 m rest with
            | error e =>
                rw [hrest, ebind_error] at h
                exact Except.noConfusion h
            | ok tail =>
                rw [hrest, ebind_ok] at h
                cases h
                rw [show stmtsCost (Stmt.RawDataDefinition data :: rest) =
                  data.length + stmtsCost rest from rfl,
                  List.length_append, ih m tail hrest]
        | PseudoInstruction pi =>
            simp only [pass2] at h
            cases htI : toInstruction m pi with
            | error e =>
                rw [htI, ebind_error] at h
                exact Except.noConfusion h
            | ok instruction =>
                rw [htI, ebind_ok] at h
                cases henc : encode instruction with
                | error e =>
                    rw [henc] at h
                    exact Except.noConfusion h
                | ok p =>
                    rw [henc] at h
                    simp only [] at h
                    cases hrest : pass2 m rest with
                    | error e =>
                        rw [hrest, ebind_error] at h
                        exact Except.noConfusion h
                    | ok tail =>
                        rw [hrest, ebind_ok] at h
                        cases h
                        rw [show stmtsCost (Stmt.PseudoInstruction pi :: rest) =
                          2 + stmtsCost rest from rfl]
                        show (p.1 :: p.2 :: tail).length = 2 + stmtsCost rest
                        rw [List.length_cons, List.length_cons, ih m tail hrest]
                        omega
  refine ⟨h1, ?_, h3, ?_, by decide⟩
  · intro name rest offset m hln
    simp only [pass1]
    rw [if_neg (by simp [hln])]
  · intro stmts bytes h
    unfold codegen at h
    cases hp1 : pass1 stmts 0x200 [] with
    | error e =>
        rw [hp1, ebind_error] at h
        exact Except.noConfusion h
    | ok r =>
        rw [hp1, ebind_ok] at h
        exact h3 stmts r.2 bytes h

/-- C8 witness: the ROM-length conjunct applied to the example program
and its four-byte output. -/
theorem codegen_offsets_and_length_witness :
    ([0x60, 0x05, 0x12, 0x00] : List Nat).length = stmtsCost c8prog :=
  codegen_offsets_and_length.2.2.2.1 c8prog [0x60, 0x05, 0x12, 0x00] (by decide)

end Chip8Verify
